import Mathlib

/-!
Verification development for the frigate Home Assistant integration
(custom_components/frigate/sensor.py and binary_sensor.py).

The MQTT message handlers of the sensor entities are shallowly embedded as
executable Lean functions.  JSON payloads are modelled by the inductive type
`JVal`, Python dictionaries by association lists with Python-dict update
semantics (update in place, append new keys at the end), and each handler is a
function from the entity's mutable state and the received payload to a result
recording the new state, whether `async_write_ha_state` was called, and whether
an uncaught exception escaped the handler.
-/

namespace Frigate

/-- JSON values, as produced by `json.loads`. -/
inductive JVal where
  | null
  | b (x : Bool)
  | num (n : Int)
  | str (s : String)
  | arr (xs : List JVal)
  | obj (fields : List (String × JVal))
deriving Repr

mutual

/-- Structural (Python `==`) equality test on JSON values. -/
def JVal.beq : JVal → JVal → Bool
  | .null, .null => true
  | .b x, .b y => x == y
  | .num n, .num m => n == m
  | .str s, .str t => s == t
  | .arr xs, .arr ys => JVal.beqList xs ys
  | .obj fs, .obj gs => JVal.beqObj fs gs
  | _, _ => false

def JVal.beqList : List JVal → List JVal → Bool
  | [], [] => true
  | x :: xs, y :: ys => JVal.beq x y && JVal.beqList xs ys
  | _, _ => false

def JVal.beqObj : List (String × JVal) → List (String × JVal) → Bool
  | [], [] => true
  | (k, v) :: xs, (l, w) :: ys => k == l && JVal.beq v w && JVal.beqObj xs ys
  | _, _ => false

end

mutual

theorem JVal.beq_iff : ∀ a b : JVal, JVal.beq a b = true ↔ a = b
  | .null, .null => by simp [JVal.beq]
  | .null, .b _ => by simp [JVal.beq]
  | .null, .num _ => by simp [JVal.beq]
  | .null, .str _ => by simp [JVal.beq]
  | .null, .arr _ => by simp [JVal.beq]
  | .null, .obj _ => by simp [JVal.beq]
  | .b _, .null => by simp [JVal.beq]
  | .b _, .b _ => by simp [JVal.beq]
  | .b _, .num _ => by simp [JVal.beq]
  | .b _, .str _ => by simp [JVal.beq]
  | .b _, .arr _ => by simp [JVal.beq]
  | .b _, .obj _ => by simp [JVal.beq]
  | .num _, .null => by simp [JVal.beq]
  | .num _, .b _ => by simp [JVal.beq]
  | .num _, .num _ => by simp [JVal.beq]
  | .num _, .str _ => by simp [JVal.beq]
  | .num _, .arr _ => by simp [JVal.beq]
  | .num _, .obj _ => by simp [JVal.beq]
  | .str _, .null => by simp [JVal.beq]
  | .str _, .b _ => by simp [JVal.beq]
  | .str _, .num _ => by simp [JVal.beq]
  | .str _, .str _ => by simp [JVal.beq]
  | .str _, .arr _ => by simp [JVal.beq]
  | .str _, .obj _ => by simp [JVal.beq]
  | .arr _, .null => by simp [JVal.beq]
  | .arr _, .b _ => by simp [JVal.beq]
  | .arr _, .num _ => by simp [JVal.beq]
  | .arr _, .str _ => by simp [JVal.beq]
  | .arr xs, .arr ys => by simp [JVal.beq, JVal.beqList_iff xs ys]
  | .arr _, .obj _ => by simp [JVal.beq]
  | .obj _, .null => by simp [JVal.beq]
  | .obj _, .b _ => by simp [JVal.beq]
  | .obj _, .num _ => by simp [JVal.beq]
  | .obj _, .str _ => by simp [JVal.beq]
  | .obj _, .arr _ => by simp [JVal.beq]
  | .obj fs, .obj gs => by simp [JVal.beq, JVal.beqObj_iff fs gs]

theorem JVal.beqList_iff : ∀ xs ys : List JVal, JVal.beqList xs ys = true ↔ xs = ys
  | [], [] => by simp [JVal.beqList]
  | [], _ :: _ => by simp [JVal.beqList]
  | _ :: _, [] => by simp [JVal.beqList]
  | x :: xs, y :: ys => by
      simp [JVal.beqList, JVal.beq_iff x y, JVal.beqList_iff xs ys]

theorem JVal.beqObj_iff : ∀ fs gs : List (String × JVal), JVal.beqObj fs gs = true ↔ fs = gs
  | [], [] => by simp [JVal.beqObj]
  | [], _ :: _ => by simp [JVal.beqObj]
  | _ :: _, [] => by simp [JVal.beqObj]
  | (k, v) :: xs, (l, w) :: ys => by
      simp [JVal.beqObj, JVal.beq_iff v w, JVal.beqObj_iff xs ys, and_assoc]

end

instance : DecidableEq JVal := fun a b =>
  decidable_of_iff (JVal.beq a b = true) (JVal.beq_iff a b)

/-- Python truthiness of a JSON value (`if not x: ...`). -/
def JVal.truthy : JVal → Bool
  | .null => false
  | .b x => x
  | .num n => n != 0
  | .str s => !s.isEmpty
  | .arr xs => !xs.isEmpty
  | .obj fs => !fs.isEmpty

/-- Python hashability of a decoded JSON value: `None`, booleans, numbers and
strings are hashable; lists and dicts are not, so using one as a dict key, a
set element, or the needle of a dict/set membership test raises an uncaught
`TypeError`. -/
def JVal.hashable : JVal → Bool
  | .arr _ => false
  | .obj _ => false
  | _ => true

/-- Truthiness of an optional value (`dict.get` returns `None` when absent). -/
def otruthy : Option JVal → Bool
  | none => false
  | some v => v.truthy

/-- Python `str()` of a JSON value.  Scalars are rendered exactly as Python
renders them; the rendering of containers (which Python would print as their
repr) is abbreviated, as no claim in this development inspects the rendered
form of a container. -/
def pyStr : JVal → String
  | .null => "None"
  | .b true => "True"
  | .b false => "False"
  | .num n => toString n
  | .str s => s
  | .arr _ => "<list>"
  | .obj _ => "<dict>"

/-- Charwise lower-casing, modelling Python `str.lower` on the identifiers
appearing in this code base. -/
def lowerStr (s : String) : String := String.mk (s.data.map Char.toLower)

/-- Python `s.replace("_", " ")`: the pattern is a single character, so the
replacement is charwise. -/
def pyReplaceUnderscore (s : String) : String :=
  String.mk (s.data.map (fun c => if c = '_' then ' ' else c))

def pyTitleGo : Bool → List Char → List Char
  | _, [] => []
  | prevAlpha, c :: cs =>
    if c.isAlpha then
      (if prevAlpha then c.toLower else c.toUpper) :: pyTitleGo true cs
    else
      c :: pyTitleGo false cs

/-- Python `str.title()`: the first letter of every run of letters is
upper-cased and the following letters lower-cased. -/
def pyTitle (s : String) : String := String.mk (pyTitleGo false s.data)

def isDigitChar (c : Char) : Bool := '0' ≤ c && c ≤ '9'

def digitsValGo : List Char → Nat → Option Nat
  | [], acc => some acc
  | c :: cs, acc =>
    if isDigitChar c then digitsValGo cs (acc * 10 + (c.toNat - 48)) else none

def isSpaceChar (c : Char) : Bool :=
  c = ' ' || c = '\t' || c = '\n' || c = '\r'

/-- Python `int(text)`: surrounding whitespace is stripped, an optional sign is
allowed, and the rest must be a non-empty digit string (digit-group
underscores are not modelled; no payload in this development uses them).
Returns `none` where Python raises `ValueError`. -/
def pyInt (s : String) : Option Int :=
  let cs := s.data.dropWhile isSpaceChar
  let cs := (cs.reverse.dropWhile isSpaceChar).reverse
  match cs with
  | [] => none
  | '-' :: rest =>
      match rest with
      | [] => none
      | _ => (digitsValGo rest 0).map (fun n => -(n : Int))
  | '+' :: rest =>
      match rest with
      | [] => none
      | _ => (digitsValGo rest 0).map (fun n => (n : Int))
  | rest => (digitsValGo rest 0).map (fun n => (n : Int))

/-- Association lists with Python-dict semantics: `dget` is `d.get(k)`. -/
def dget {κ α : Type} [DecidableEq κ] : List (κ × α) → κ → Option α
  | [], _ => none
  | (k, v) :: rest, q => if k = q then some v else dget rest q

/-- `d[k] = v`: updates the first binding of `k` in place, or appends a new
binding at the end (Python dicts preserve insertion order). -/
def dset {κ α : Type} [DecidableEq κ] : List (κ × α) → κ → α → List (κ × α)
  | [], q, w => [(q, w)]
  | (k, v) :: rest, q, w =>
      if k = q then (k, w) :: rest else (k, v) :: dset rest q w

/-- `d.pop(k)` (the removal part): removes the binding of `k` if present. -/
def derase {κ α : Type} [DecidableEq κ] : List (κ × α) → κ → List (κ × α)
  | [], _ => []
  | (k, v) :: rest, q => if k = q then rest else (k, v) :: derase rest q

/-- An inbound MQTT payload: either text that is not valid JSON (on which
`json.loads` raises `ValueError`), or a parsed JSON value. -/
inductive Payload where
  | raw (s : String)
  | json (v : JVal)
deriving Repr, DecidableEq

/-- Result of running one message handler: the entity state afterwards,
whether `async_write_ha_state` was called, and whether an exception escaped
the handler uncaught. -/
structure HRes (σ : Type) where
  st : σ
  wrote : Bool
  raised : Bool
deriving Repr, DecidableEq

/-- The handler returned without mutating anything. -/
def noopR {σ : Type} (s : σ) : HRes σ := ⟨s, false, false⟩

/-- The handler died with an uncaught exception before mutating anything. -/
def raisedR {σ : Type} (s : σ) : HRes σ := ⟨s, false, true⟩

/-- Python `model_key in self._attribute_models` where the list holds strings
and `model_key` is an arbitrary JSON value (`None` when the field is absent). -/
def modelInList (o : Option JVal) (models : List String) : Bool :=
  match o with
  | some (.str m) => models.contains m
  | _ => false

/-! ### FrigateObjectCountSensor (sensor.py lines 779-1023) -/

/-- Mutable state of a `FrigateObjectCountSensor`: the scalar count from the
primary per-camera topic, the attribute aggregate `_attribute_counts`, and the
lifecycle tracker `_tracked_object_attributes`. -/
structure ObjCountState where
  state : Int
  attribute_counts : List (JVal × Int)
  tracked_object_attributes : List (JVal × JVal)
deriving Repr, DecidableEq

def ocInit : ObjCountState := ⟨0, [], []⟩

/-- The old-value decrement of the set-attribution update (sensor.py lines
877-883 and 953-959): when the object's previous attribute is truthy and a key
of `_attribute_counts`, decrement that count, floor-clamped at zero. -/
def decOld (objectId : JVal) (s : ObjCountState) : List (JVal × Int) :=
  match dget s.tracked_object_attributes objectId with
  | some old =>
      if old.truthy then
        match dget s.attribute_counts old with
        | some c => dset s.attribute_counts old (max 0 (c - 1))
        | none => s.attribute_counts
      else s.attribute_counts
  | none => s.attribute_counts

/-- Whether line 880's `old_attribute and old_attribute in
self._attribute_counts` raises: `and` short-circuits on a falsy value, but a
truthy unhashable stored value reaches the dict membership test and raises
`TypeError` before any mutation. -/
def decOldRaises (objectId : JVal) (s : ObjCountState) : Bool :=
  match dget s.tracked_object_attributes objectId with
  | some old => old.truthy && !old.hashable
  | none => false

/-- The completed set-attribution update (sensor.py lines 876-891 and
952-967): remove the object's previous contribution (floor-clamped at zero),
record the new attribution, and increment the new attribute's count. -/
def setAttrFull (objectId attrVal : JVal) (s : ObjCountState) : ObjCountState :=
  let counts1 := decOld objectId s
  let tracked1 := dset s.tracked_object_attributes objectId attrVal
  let counts2 := dset counts1 attrVal ((dget counts1 attrVal).getD 0 + 1)
  { s with attribute_counts := counts2, tracked_object_attributes := tracked1 }

/-- The shared set-attribution update with its failure modes (only
`ValueError`/`KeyError` are caught, so `TypeError` escapes): an unhashable
object id raises at `self._tracked_object_attributes.get(object_id)` (lines
877/953) before any mutation; a truthy unhashable stored old value raises at
the line-880/956 membership test before any mutation; an unhashable new
attribute value raises at `self._attribute_counts.get(attribute, 0)` (lines
889/965) AFTER the old-count decrement and the tracker assignment of lines
886/962 — a partial, invariant-breaking update with no state write. -/
def setAttrOp (objectId attrVal : JVal) (s : ObjCountState) : HRes ObjCountState :=
  if ¬ objectId.hashable then raisedR s
  else if decOldRaises objectId s then raisedR s
  else if ¬ attrVal.hashable then
    ⟨{ s with
        attribute_counts := decOld objectId s,
        tracked_object_attributes := dset s.tracked_object_attributes objectId attrVal },
      false, true⟩
  else ⟨setAttrFull objectId attrVal s, true, false⟩

/-- `FrigateObjectCountSensor._state_message_received` (lines 835-842). -/
def oc_state_message_received (s : ObjCountState) (payload : String) :
    HRes ObjCountState :=
  match pyInt payload with
  | some n => ⟨{ s with state := n }, true, false⟩
  | none => noopR s

/-- What a payload asks a tracking handler to do, once its filters have run:
nothing, an uncaught exception, record an attribution, or end a track. -/
inductive EvDecision where
  | ignore
  | raisedE
  | setRec (objectId v : JVal)
  | endTrack (objectId : JVal)
deriving Repr, DecidableEq

/-- The filter chain of
`FrigateObjectCountSensor._attribute_message_received` (lines 851-874):
discriminator, camera, tracked model, truthy attribute, truthy id. -/
def attrDecision (camName : String) (attributeModels : List String)
    (p : Payload) : EvDecision :=
  match p with
  | .raw _ => .ignore
  | .json (.obj data) =>
    if dget data "type" ≠ some (.str "classification") then .ignore
    else if dget data "camera" ≠ some (.str camName) then .ignore
    else if ¬ modelInList (dget data "model") attributeModels then .ignore
    else
      match dget data "attribute" with
      | none => .ignore
      | some attrVal =>
        if ¬ attrVal.truthy then .ignore
        else
          match dget data "id" with
          | none => .ignore
          | some objectId =>
            if ¬ objectId.truthy then .ignore
            else .setRec objectId attrVal
  | .json _ => .raisedE

/-- `FrigateObjectCountSensor._attribute_message_received` (lines 844-896). -/
def attribute_message_received (camName : String) (attributeModels : List String)
    (s : ObjCountState) (p : Payload) : HRes ObjCountState :=
  match attrDecision camName attributeModels p with
  | .ignore => noopR s
  | .raisedE => raisedR s
  | .setRec objectId attrVal => setAttrOp objectId attrVal s
  | .endTrack _ => noopR s

/-- The `after.get("current_attributes", [])` access followed by the `for`
loop's iteration: a missing key defaults to the empty list; iterating a string
yields its characters and iterating a dict yields its keys (both then fail the
`isinstance(attr_data, dict)` check); iterating any other non-list raises an
uncaught `TypeError`. -/
def getCurrentAttrs (af : List (String × JVal)) : Except Unit (List JVal) :=
  match dget af "current_attributes" with
  | none => .ok []
  | some (.arr xs) => .ok xs
  | some (.str s) => .ok (s.data.map (fun c => JVal.str (String.mk [c])))
  | some (.obj fs) => .ok (fs.map (fun kv => JVal.str kv.1))
  | some _ => .error ()

/-- The scan over `current_attributes` in
`FrigateObjectCountSensor._event_message_received` (lines 946-970): the loop
`break`s after the first dict entry whose model is tracked and whose
`attribute` is truthy; entries failing either test are skipped. -/
def findCountAttr (models : List String) : List JVal → Option JVal
  | [] => none
  | e :: rest =>
    match e with
    | .obj ef =>
      if modelInList (dget ef "model") models then
        match dget ef "attribute" with
        | some a => if a.truthy then some a else findCountAttr models rest
        | none => findCountAttr models rest
      else findCountAttr models rest
    | _ => findCountAttr models rest

/-- The end-of-track decrement (lines 934-937): only performed when the old
attribute is a key of `_attribute_counts`, and floor-clamped at zero. -/
def decEnd (counts : List (JVal × Int)) (old : JVal) : List (JVal × Int) :=
  match dget counts old with
  | some c => dset counts old (max 0 (c - 1))
  | none => counts

/-- The filter chain of
`FrigateObjectCountSensor._event_message_received` (lines 905-946): `after`
present and truthy, camera, label, truthy id; then the end/active dispatch on
`end_time` and (for active events) the scan over `current_attributes`. -/
def eventDecision (camName objName : String) (attributeModels : List String)
    (p : Payload) : EvDecision :=
  match p with
  | .raw _ => .ignore
  | .json (.obj data) =>
    match dget data "after" with
    | none => .ignore
    | some after =>
      if ¬ after.truthy then .ignore
      else
        match after with
        | .obj af =>
          if dget af "camera" ≠ some (.str camName) then .ignore
          else if dget af "label" ≠ some (.str objName) then .ignore
          else
            match dget af "id" with
            | none => .ignore
            | some objectId =>
              if ¬ objectId.truthy then .ignore
              else
                match dget af "end_time" with
                | none =>
                    match getCurrentAttrs af with
                    | .error _ => .raisedE
                    | .ok xs =>
                      match findCountAttr attributeModels xs with
                      | some attrVal => .setRec objectId attrVal
                      | none => .ignore
                | some .null =>
                    match getCurrentAttrs af with
                    | .error _ => .raisedE
                    | .ok xs =>
                      match findCountAttr attributeModels xs with
                      | some attrVal => .setRec objectId attrVal
                      | none => .ignore
                | some _ => .endTrack objectId
        | _ => .raisedE
  | .json _ => .raisedE

/-- The end-of-track removal (lines 928-939): pop the object's recorded
attribution and decrement that attribute's count; a no-op for an untracked
object id.  An unhashable object id raises `TypeError` at the line-930
membership test before any mutation; an unhashable popped value raises at the
line-934 membership test AFTER the pop — the tracker entry is removed but no
count is decremented and nothing is written. -/
def endAttrOp (objectId : JVal) (s : ObjCountState) : HRes ObjCountState :=
  if ¬ objectId.hashable then raisedR s
  else
    match dget s.tracked_object_attributes objectId with
    | some old =>
        if ¬ old.hashable then
          ⟨{ s with
              tracked_object_attributes := derase s.tracked_object_attributes objectId },
            false, true⟩
        else
          ⟨{ s with
              tracked_object_attributes := derase s.tracked_object_attributes objectId,
              attribute_counts := decEnd s.attribute_counts old },
            true, false⟩
    | none => noopR s

/-- `FrigateObjectCountSensor._event_message_received` (lines 898-973). -/
def event_message_received (camName objName : String) (attributeModels : List String)
    (s : ObjCountState) (p : Payload) : HRes ObjCountState :=
  match eventDecision camName objName attributeModels p with
  | .ignore => noopR s
  | .raisedE => raisedR s
  | .setRec objectId attrVal => setAttrOp objectId attrVal s
  | .endTrack objectId => endAttrOp objectId s

/-- `FrigateObjectCountSensor.extra_state_attributes` (lines 1013-1018). -/
def extra_state_attributes (s : ObjCountState) : List (JVal × Int) :=
  if s.attribute_counts.isEmpty then [] else s.attribute_counts

/-- One inbound message for a `FrigateObjectCountSensor`: the primary count
topic, the `tracked_object_update` topic, or the `events` topic. -/
inductive OCMsg where
  | count (payload : String)
  | attr (p : Payload)
  | event (p : Payload)
deriving Repr

def ocStep (camName objName : String) (models : List String)
    (s : ObjCountState) : OCMsg → ObjCountState
  | .count payload => (oc_state_message_received s payload).st
  | .attr p => (attribute_message_received camName models s p).st
  | .event p => (event_message_received camName objName models s p).st

/-- The state of a `FrigateObjectCountSensor` after processing a sequence of
messages, starting from the freshly constructed entity. -/
def ocRun (camName objName : String) (models : List String)
    (msgs : List OCMsg) : ObjCountState :=
  msgs.foldl (ocStep camName objName models) ocInit

/-- The full handler result (state, write flag, uncaught-exception flag) for
one inbound message. -/
def ocStepRes (camName objName : String) (models : List String)
    (s : ObjCountState) : OCMsg → HRes ObjCountState
  | .count payload => oc_state_message_received s payload
  | .attr p => attribute_message_received camName models s p
  | .event p => event_message_received camName objName models s p

/-- Whether every message of the sequence, processed in order from `s`, runs
to completion without an uncaught exception. -/
def ocCleanFrom (camName objName : String) (models : List String) :
    ObjCountState → List OCMsg → Bool
  | _, [] => true
  | s, m :: rest =>
      !(ocStepRes camName objName models s m).raised
        && ocCleanFrom camName objName models (ocStep camName objName models s m) rest

/-- Whether the whole sequence, processed from the freshly constructed entity,
raises no uncaught exception. -/
def ocClean (camName objName : String) (models : List String)
    (msgs : List OCMsg) : Bool :=
  ocCleanFrom camName objName models ocInit msgs

/-- The aggregate count recorded for attribute `K` (absent keys count as 0,
matching `dict.get(K, 0)`). -/
def countVal (counts : List (JVal × Int)) (K : JVal) : Int :=
  (dget counts K).getD 0

/-- The number of tracked object ids whose currently recorded attribution
is `K`. -/
def occCount (tracked : List (JVal × JVal)) (K : JVal) : Nat :=
  tracked.countP (fun kv => kv.2 = K)

/-! ### FrigateSublabelCountSensor (sensor.py lines 1115-1317) -/

/-- Mutable state of a `FrigateSublabelCountSensor`. -/
structure SublabelCountState where
  state : Int
  tracked_objects : List (JVal × JVal)
deriving Repr, DecidableEq

def scInit : SublabelCountState := ⟨0, []⟩

/-- `sum(1 for sl in self._tracked_objects.values() if sl == self._sublabel_class)`. -/
def countSublabelMatches (tracked : List (JVal × JVal)) (sublabelClass : String) : Int :=
  (tracked.countP (fun kv => kv.2 = JVal.str sublabelClass) : Nat)

/-- The filter chain of `FrigateSublabelCountSensor._state_message_received`
(lines 1174-1195): discriminator, camera, model equality, truthy sublabel,
truthy id.  Note: the camera filter is `data.get("camera") != self._cam_name`
only; the handler never consults `current_zones`, even when the sensor was
constructed for a zone (see `_create_sublabel_sensors`, lines 145-182, which
iterates `get_cameras_zones_and_objects`). -/
def sublabelStateDecision (camName modelKey : String) (p : Payload) : EvDecision :=
  match p with
  | .raw _ => .ignore
  | .json (.obj data) =>
    if dget data "type" ≠ some (.str "classification") then .ignore
    else if dget data "camera" ≠ some (.str camName) then .ignore
    else if dget data "model" ≠ some (.str modelKey) then .ignore
    else
      match dget data "sub_label" with
      | none => .ignore
      | some sublabel =>
        if ¬ sublabel.truthy then .ignore
        else
          match dget data "id" with
          | none => .ignore
          | some objectId =>
            if ¬ objectId.truthy then .ignore
            else .setRec objectId sublabel
  | .json _ => .raisedE

/-- `FrigateSublabelCountSensor._state_message_received` (lines 1167-1207).
An unhashable object id raises an uncaught `TypeError` at the line-1198
assignment `self._tracked_objects[object_id] = sublabel`, before any
mutation. -/
def sublabel_state_message_received (camName modelKey sublabelClass : String)
    (s : SublabelCountState) (p : Payload) : HRes SublabelCountState :=
  match sublabelStateDecision camName modelKey p with
  | .ignore => noopR s
  | .raisedE => raisedR s
  | .setRec objectId sublabel =>
      if ¬ objectId.hashable then raisedR s
      else
        let tracked1 := dset s.tracked_objects objectId sublabel
        ⟨⟨countSublabelMatches tracked1 sublabelClass, tracked1⟩, true, false⟩
  | .endTrack _ => noopR s

/-- The scan over `current_attributes` in
`FrigateSublabelCountSensor._event_message_received` (lines 1256-1271). -/
def findSublabelAttr (modelKey : String) : List JVal → Option JVal
  | [] => none
  | e :: rest =>
    match e with
    | .obj ef =>
      if dget ef "model" = some (.str modelKey) then
        match dget ef "sub_label" with
        | some sl => if sl.truthy then some sl else findSublabelAttr modelKey rest
        | none => findSublabelAttr modelKey rest
      else findSublabelAttr modelKey rest
    | _ => findSublabelAttr modelKey rest

/-- The filter chain of `FrigateSublabelCountSensor._event_message_received`
(lines 1216-1253). -/
def sublabelEventDecision (camName objName modelKey : String) (p : Payload) :
    EvDecision :=
  match p with
  | .raw _ => .ignore
  | .json (.obj data) =>
    match dget data "after" with
    | none => .ignore
    | some after =>
      if ¬ after.truthy then .ignore
      else
        match after with
        | .obj af =>
          if dget af "camera" ≠ some (.str camName) then .ignore
          else if dget af "label" ≠ some (.str objName) then .ignore
          else
            match dget af "id" with
            | none => .ignore
            | some objectId =>
              if ¬ objectId.truthy then .ignore
              else
                match dget af "end_time" with
                | none =>
                    match getCurrentAttrs af with
                    | .error _ => .raisedE
                    | .ok xs =>
                      match findSublabelAttr modelKey xs with
                      | some sublabel => .setRec objectId sublabel
                      | none => .ignore
                | some .null =>
                    match getCurrentAttrs af with
                    | .error _ => .raisedE
                    | .ok xs =>
                      match findSublabelAttr modelKey xs with
                      | some sublabel => .setRec objectId sublabel
                      | none => .ignore
                | some _ => .endTrack objectId
        | _ => .raisedE
  | .json _ => .raisedE

/-- `FrigateSublabelCountSensor._event_message_received` (lines 1209-1274).
An unhashable object id raises an uncaught `TypeError` at the line-1241
membership test (end branch) or the line-1263 assignment (active branch),
before any mutation. -/
def sublabel_event_message_received (camName objName modelKey sublabelClass : String)
    (s : SublabelCountState) (p : Payload) : HRes SublabelCountState :=
  match sublabelEventDecision camName objName modelKey p with
  | .ignore => noopR s
  | .raisedE => raisedR s
  | .setRec objectId sublabel =>
      if ¬ objectId.hashable then raisedR s
      else
        let tracked1 := dset s.tracked_objects objectId sublabel
        ⟨⟨countSublabelMatches tracked1 sublabelClass, tracked1⟩, true, false⟩
  | .endTrack objectId =>
      if ¬ objectId.hashable then raisedR s
      else if (dget s.tracked_objects objectId).isSome then
        let tracked1 := derase s.tracked_objects objectId
        ⟨⟨countSublabelMatches tracked1 sublabelClass, tracked1⟩, true, false⟩
      else noopR s

/-! ### FrigateObjectOccupancySensor (binary_sensor.py lines 117-279) -/

/-- Mutable state of a `FrigateObjectOccupancySensor`. -/
structure OccupancyState where
  is_on : Bool
  attribute_counts : List (JVal × Int)
  tracked_object_attributes : List (JVal × JVal)
deriving Repr, DecidableEq

/-- `FrigateObjectOccupancySensor._state_message_received` (lines 172-179):
`int(msg.payload) > 0`, with `ValueError` handled by setting the sensor off;
`async_write_ha_state` is called on both paths. -/
def occupancy_state_message_received (s : OccupancyState) (payload : String) :
    HRes OccupancyState :=
  match pyInt payload with
  | some n => ⟨{ s with is_on := decide (0 < n) }, true, false⟩
  | none => ⟨{ s with is_on := false }, true, false⟩

/-! ### FrigateSublabelOccupancySensor (binary_sensor.py lines 282-400) -/

/-- Mutable state of a `FrigateSublabelOccupancySensor`: the occupancy flag
and the `_tracked_objects` set of object ids. -/
structure SublabelOccupancyState where
  is_on : Bool
  tracked_objects : List JVal
deriving Repr, DecidableEq

def soInit : SublabelOccupancyState := ⟨false, []⟩

/-- Python `set.add`. -/
def setAdd (l : List JVal) (x : JVal) : List JVal :=
  if l.any (fun y => y = x) then l else l ++ [x]

/-- Python `set.discard`. -/
def setDiscard (l : List JVal) (x : JVal) : List JVal :=
  l.filter (fun y => y ≠ x)

/-- `FrigateSublabelOccupancySensor._state_message_received` (lines 319-357).
Its filter chain (lines 322-343) is identical to the sublabel count sensor's
state handler, so `sublabelStateDecision` is reused.  An unhashable object id
raises an uncaught `TypeError` at `set.add`/`set.discard` (lines 347/350),
before any mutation. -/
def sublabel_occupancy_message_received (camName modelKey sublabelClass : String)
    (s : SublabelOccupancyState) (p : Payload) : HRes SublabelOccupancyState :=
  match sublabelStateDecision camName modelKey p with
  | .ignore => noopR s
  | .raisedE => raisedR s
  | .setRec objectId sublabel =>
      if ¬ objectId.hashable then raisedR s
      else
        let tracked1 :=
          if sublabel = JVal.str sublabelClass
          then setAdd s.tracked_objects objectId
          else setDiscard s.tracked_objects objectId
        ⟨⟨decide (0 < tracked1.length), tracked1⟩, true, false⟩
  | .endTrack _ => noopR s

/-! ### Scheduled state decay (face / plate / object-classification sensors)

The sensors with decay behaviour share one pattern (e.g. sensor.py lines
1504-1535): a matching observation stores the value, calls the previous
cancellation callable if any, schedules a fresh `async_call_later` callback 60
seconds ahead, and stores its cancellation handle; the callback resets the
value to the idle sentinel and clears the handle.  The scheduler is modelled
explicitly: every timer ever created is kept, with `cancelled` and `fired`
flags, and a trace-validity predicate admits a `fire` event only for a live
timer at exactly its scheduled time. -/

structure Timer where
  id : Nat
  fireAt : Nat
  cancelled : Bool
  fired : Bool
deriving Repr, DecidableEq

def timerLive (tm : Timer) : Bool := !tm.cancelled && !tm.fired

/-- Value state plus timer bookkeeping for one decaying sensor. -/
structure DecayWorld (σ : Type) where
  value : σ
  handle : Option Nat
  timers : List Timer
  nextId : Nat
deriving Repr, DecidableEq

/-- Calling the cancellation callable returned by `async_call_later`. -/
def cancelTimer (timers : List Timer) (i : Nat) : List Timer :=
  timers.map (fun tm => if tm.id = i then { tm with cancelled := true } else tm)

def cancelHandle (timers : List Timer) : Option Nat → List Timer
  | some h => cancelTimer timers h
  | none => timers

/-- The common tail of every observation: cancel the pending callback if any,
schedule a new one 60 seconds ahead, store its handle. -/
def scheduleDecay {σ : Type} (w : DecayWorld σ) (now : Nat) : DecayWorld σ :=
  { w with
      timers := cancelHandle w.timers w.handle ++ [⟨w.nextId, now + 60, false, false⟩],
      handle := some w.nextId,
      nextId := w.nextId + 1 }

def markFired (timers : List Timer) (i : Nat) : List Timer :=
  timers.map (fun tm => if tm.id = i then { tm with fired := true } else tm)

/-- The decay callback (`clear_recognized_face` / `clear_recognized_plate` /
`clear_classification`): reset the value to the idle sentinel and clear the
handle. -/
def fireDecay {σ : Type} (idle : σ) (w : DecayWorld σ) (i : Nat) : DecayWorld σ :=
  { value := idle, handle := none, timers := markFired w.timers i, nextId := w.nextId }

/-- What one message does to a decaying sensor: nothing, an uncaught
exception, or an observation of a new value. -/
inductive MsgOutcome (σ : Type) where
  | ignore
  | raisedO
  | observe (v : σ)
deriving Repr, DecidableEq

/-- The message handler of a decaying sensor, given the outcome its filters
produced for the payload. -/
def decay_message_received {σ : Type} (out : MsgOutcome σ) (w : DecayWorld σ)
    (now : Nat) : HRes (DecayWorld σ) :=
  match out with
  | .ignore => noopR w
  | .raisedO => raisedR w
  | .observe v => ⟨scheduleDecay { w with value := v } now, true, false⟩

/-- `FrigateRecognizedFaceSensor._state_message_received` (lines 1504-1528),
reduced to its outcome: only `ValueError` is caught, so `data["name"]` on a
face message missing `name` raises an uncaught `KeyError`. -/
def faceMsgOutcome (camName : String) (p : Payload) : MsgOutcome JVal :=
  match p with
  | .raw _ => .ignore
  | .json (.obj data) =>
    if dget data "type" ≠ some (.str "face") then .ignore
    else if dget data "camera" ≠ some (.str camName) then .ignore
    else
      match dget data "name" with
      | some nm => .observe nm
      | none => .raisedO
  | .json _ => .raisedO

/-- `FrigateRecognizedPlateSensor._state_message_received` (lines 1607-1634). -/
def plateMsgOutcome (camName : String) (p : Payload) : MsgOutcome String :=
  match p with
  | .raw _ => .ignore
  | .json (.obj data) =>
    if dget data "type" ≠ some (.str "lpr") then .ignore
    else if dget data "camera" ≠ some (.str camName) then .ignore
    else if otruthy (dget data "name") then
      .observe (pyTitle (pyStr ((dget data "name").getD .null)))
    else
      match dget data "plate" with
      | some pl => .observe (pyStr pl)
      | none => .raisedO
  | .json _ => .raisedO

def isPrefB : List Char → List Char → Bool
  | [], _ => true
  | _ :: _, [] => false
  | a :: as, b :: bs => a = b && isPrefB as bs

def hasSubList (needle : List Char) : List Char → Bool
  | [] => isPrefB needle []
  | c :: rest => isPrefB needle (c :: rest) || hasSubList needle rest

/-- Python `needle in container` for the containers `in` accepts: list
membership, substring test, dict-key membership; on other values `in` raises
an uncaught `TypeError`. -/
def pyInE (needle : String) : JVal → Except Unit Bool
  | .arr xs => .ok (xs.any (fun v => v = JVal.str needle))
  | .str s => .ok (hasSubList needle.data s.data)
  | .obj fs => .ok (fs.any (fun kv => kv.1 = needle))
  | _ => .error ()

/-- The zone filter of the zone-scoped classification sensor:
`self._cam_or_zone_name not in data.get("current_zones", [])`. -/
def zoneCheck (cznName : String) (data : List (String × JVal)) : Except Unit Bool :=
  pyInE cznName ((dget data "current_zones").getD (.arr []))

/-- `FrigateObjectClassificationSensor._state_message_received`
(lines 1820-1863), reduced to its outcome. -/
def objclassMsgOutcome (cznName acnName modelKey : String) (p : Payload) :
    MsgOutcome String :=
  match p with
  | .raw _ => .ignore
  | .json (.obj data) =>
    if dget data "type" ≠ some (.str "classification") then .ignore
    else if dget data "camera" ≠ some (.str acnName) then .ignore
    else
      match (if cznName = acnName then Except.ok true else zoneCheck cznName data) with
      | .error _ => .raisedO
      | .ok false => .ignore
      | .ok true =>
        if dget data "model" ≠ some (.str modelKey) then .ignore
        else
          match dget data "sub_label" with
          | some sl => .observe (pyTitle (pyReplaceUnderscore (pyStr sl)))
          | none =>
            match dget data "attribute" with
            | some a => .observe (pyTitle (pyReplaceUnderscore (pyStr a)))
            | none => .ignore
  | .json _ => .raisedO

/-- The scan over `current_attributes` in
`FrigateObjectClassificationSensor._event_message_received`
(lines 1890-1917): entries whose model differs are skipped with `continue`;
a matching entry is applied if it has a `sub_label` or `attribute` key (even
with a null value), otherwise the loop `continue`s to later entries. -/
def findClassEntry (modelKey : String) : List JVal → Option JVal
  | [] => none
  | e :: rest =>
    match e with
    | .obj ef =>
      if dget ef "model" ≠ some (.str modelKey) then findClassEntry modelKey rest
      else
        match dget ef "sub_label" with
        | some sl => some sl
        | none =>
          match dget ef "attribute" with
          | some a => some a
          | none => findClassEntry modelKey rest
    | _ => findClassEntry modelKey rest

/-- `FrigateObjectClassificationSensor._event_message_received`
(lines 1865-1920), reduced to its outcome. -/
def objclassEventOutcome (cznName acnName modelKey : String) (p : Payload) :
    MsgOutcome String :=
  match p with
  | .raw _ => .ignore
  | .json (.obj data) =>
    match dget data "after" with
    | none => .ignore
    | some after =>
      if ¬ after.truthy then .ignore
      else
        match after with
        | .obj af =>
          if dget af "camera" ≠ some (.str acnName) then .ignore
          else
            match (if cznName = acnName then Except.ok true else zoneCheck cznName af) with
            | .error _ => .raisedO
            | .ok false => .ignore
            | .ok true =>
              match getCurrentAttrs af with
              | .error _ => .raisedO
              | .ok xs =>
                match findClassEntry modelKey xs with
                | some v => .observe (pyTitle (pyReplaceUnderscore (pyStr v)))
                | none => .ignore
        | _ => .raisedO
  | .json _ => .raisedO

/-- `FrigateRecognizedFaceSensor._state_message_received` (lines 1504-1528):
filters, store `data["name"]`, write, cancel the previous handle, schedule the
60-second `clear_recognized_face` callback. -/
def face_state_message_received (camName : String) (w : DecayWorld JVal)
    (p : Payload) (now : Nat) : HRes (DecayWorld JVal) :=
  decay_message_received (faceMsgOutcome camName p) w now

/-- `FrigateRecognizedPlateSensor._state_message_received` (lines 1607-1634). -/
def plate_state_message_received (camName : String) (w : DecayWorld String)
    (p : Payload) (now : Nat) : HRes (DecayWorld String) :=
  decay_message_received (plateMsgOutcome camName p) w now

/-- `FrigateObjectClassificationSensor._state_message_received`
(lines 1820-1863). -/
def objclass_state_message_received (cznName acnName modelKey : String)
    (w : DecayWorld String) (p : Payload) (now : Nat) : HRes (DecayWorld String) :=
  decay_message_received (objclassMsgOutcome cznName acnName modelKey p) w now

/-- `FrigateObjectClassificationSensor._event_message_received`
(lines 1865-1920). -/
def objclass_event_message_received (cznName acnName modelKey : String)
    (w : DecayWorld String) (p : Payload) (now : Nat) : HRes (DecayWorld String) :=
  decay_message_received (objclassEventOutcome cznName acnName modelKey p) w now

/-- A scheduler-level event for one decaying sensor: a message delivery or the
firing of one scheduled callback. -/
inductive DecayEv where
  | msg (p : Payload) (t : Nat)
  | fire (i : Nat) (t : Nat)
deriving Repr

def evTime : DecayEv → Nat
  | .msg _ t => t
  | .fire _ t => t

def decayStep {σ : Type} (f : Payload → MsgOutcome σ) (idle : σ)
    (w : DecayWorld σ) : DecayEv → DecayWorld σ
  | .msg p t => (decay_message_received (f p) w t).st
  | .fire i _ => fireDecay idle w i

/-- Whether an event is admissible in the world `w` with previous event time
`lastT`: times are non-decreasing, and a callback fires only if it is still
scheduled (neither cancelled nor already fired) and its due time has come. -/
def decayEvOk {σ : Type} (w : DecayWorld σ) (lastT : Nat) : DecayEv → Bool
  | .msg _ t => lastT ≤ t
  | .fire i t =>
      lastT ≤ t && w.timers.any (fun tm => tm.id = i && timerLive tm && tm.fireAt = t)

def decayValid {σ : Type} (f : Payload → MsgOutcome σ) (idle : σ) :
    DecayWorld σ → Nat → List DecayEv → Bool
  | _, _, [] => true
  | w, lastT, e :: rest =>
      decayEvOk w lastT e && decayValid f idle (decayStep f idle w e) (evTime e) rest

def decayRunFrom {σ : Type} (f : Payload → MsgOutcome σ) (idle : σ)
    (w : DecayWorld σ) (evs : List DecayEv) : DecayWorld σ :=
  evs.foldl (decayStep f idle) w

/-- A freshly constructed decaying sensor: no pending callback, no timers. -/
def decayInit {σ : Type} (v0 : σ) : DecayWorld σ := ⟨v0, none, [], 0⟩

/-- The scheduled-but-not-yet-dead callbacks. -/
def pendingTimers {σ : Type} (w : DecayWorld σ) : List Timer :=
  w.timers.filter timerLive

/-! ### FrigateClassificationSensor restore (sensor.py lines 1682-1737) -/

/-- `FrigateClassificationSensor.async_added_to_hass` (lines 1714-1724): the
saved native value is restored only when it is truthy and its lower-cased form
is neither "unknown" nor "unavailable".  Returns the state after the restore
attempt and whether the state was assigned (and written). -/
def classification_restore (lastNativeValue : Option JVal) (st : String) :
    String × Bool :=
  match lastNativeValue with
  | none => (st, false)
  | some v =>
    if v.truthy then
      let nv := pyStr v
      if lowerStr nv ≠ "unknown" ∧ lowerStr nv ≠ "unavailable" then (nv, true)
      else (st, false)
    else (st, false)

/-! ### Association-list lemmas -/

section DictLemmas

variable {κ α : Type} [DecidableEq κ]

theorem dget_dset_self (d : List (κ × α)) (k : κ) (v : α) :
    dget (dset d k v) k = some v := by
  induction d with
  | nil => simp [dset, dget]
  | cons kv rest ih =>
    obtain ⟨k1, v1⟩ := kv
    by_cases h : k1 = k <;> simp [dset, dget, h, ih]

theorem dget_dset_ne (d : List (κ × α)) (k q : κ) (v : α) (hne : q ≠ k) :
    dget (dset d k v) q = dget d q := by
  have hkq : ¬ k = q := fun h => hne h.symm
  induction d with
  | nil => simp [dset, dget, hkq]
  | cons kv rest ih =>
    obtain ⟨k1, v1⟩ := kv
    by_cases h : k1 = k
    · subst h
      simp [dset, dget, hkq]
    · simp [dset, dget, h, ih]

theorem dset_dset_self (d : List (κ × α)) (k : κ) (v w : α) :
    dset (dset d k v) k w = dset d k w := by
  induction d with
  | nil => simp [dset]
  | cons kv rest ih =>
    obtain ⟨k1, v1⟩ := kv
    by_cases h : k1 = k <;> simp [dset, h, ih]

theorem dset_eq_of_dget (d : List (κ × α)) (k : κ) (v : α)
    (h : dget d k = some v) : dset d k v = d := by
  induction d with
  | nil => simp [dget] at h
  | cons kv rest ih =>
    obtain ⟨k1, v1⟩ := kv
    by_cases hk : k1 = k
    · simp [dget, hk] at h
      simp [dset, hk, h]
    · simp [dget, hk] at h
      simp [dset, hk, ih h]

theorem dget_eq_none_iff (d : List (κ × α)) (k : κ) :
    dget d k = none ↔ k ∉ d.map Prod.fst := by
  induction d with
  | nil => simp [dget]
  | cons kv rest ih =>
    obtain ⟨k1, v1⟩ := kv
    by_cases h : k1 = k
    · simp [dget, h]
    · have h2 : ¬ k = k1 := fun hh => h hh.symm
      simp [dget, h, h2, ih]

theorem dset_of_dget_none (d : List (κ × α)) (k : κ) (v : α)
    (h : dget d k = none) : dset d k v = d ++ [(k, v)] := by
  induction d with
  | nil => simp [dset]
  | cons kv rest ih =>
    obtain ⟨k1, v1⟩ := kv
    by_cases hk : k1 = k
    · simp [dget, hk] at h
    · simp [dget, hk] at h
      simp [dset, hk, ih h]

theorem map_fst_dset_some (d : List (κ × α)) (k : κ) (v w : α)
    (h : dget d k = some w) : (dset d k v).map Prod.fst = d.map Prod.fst := by
  induction d with
  | nil => simp [dget] at h
  | cons kv rest ih =>
    obtain ⟨k1, v1⟩ := kv
    by_cases hk : k1 = k
    · simp [dset, hk]
    · simp [dget, hk] at h
      simp [dset, hk, ih h]

theorem nodup_map_fst_dset (d : List (κ × α)) (k : κ) (v : α)
    (h : (d.map Prod.fst).Nodup) : ((dset d k v).map Prod.fst).Nodup := by
  cases hg : dget d k with
  | none =>
    rw [dset_of_dget_none d k v hg]
    simp only [List.map_append, List.map_cons, List.map_nil]
    rw [List.nodup_append]
    refine ⟨h, List.nodup_singleton _, ?_⟩
    intro a ha hb
    simp at hb
    rw [hb] at ha
    exact (dget_eq_none_iff d k).mp hg ha
  | some w => rw [map_fst_dset_some d k v w hg]; exact h

theorem sum_dset_int (d : List (κ × Int)) (k : κ) (v : Int) :
    ((dset d k v).map Prod.snd).sum
      = (d.map Prod.snd).sum + v - ((dget d k).getD 0) := by
  induction d with
  | nil => simp [dset, dget]
  | cons kv rest ih =>
    obtain ⟨k1, v1⟩ := kv
    by_cases hk : k1 = k
    · simp [dset, dget, hk]
      ring
    · simp [dset, dget, hk, ih]
      ring

theorem length_dset_none (d : List (κ × α)) (k : κ) (v : α)
    (h : dget d k = none) : (dset d k v).length = d.length + 1 := by
  rw [dset_of_dget_none d k v h]; simp

theorem length_dset_some (d : List (κ × α)) (k : κ) (v w : α)
    (h : dget d k = some w) : (dset d k v).length = d.length := by
  induction d with
  | nil => simp [dget] at h
  | cons kv rest ih =>
    obtain ⟨k1, v1⟩ := kv
    by_cases hk : k1 = k
    · simp [dset, hk]
    · simp [dget, hk] at h
      simp [dset, hk, ih h]

theorem derase_of_dget_none (d : List (κ × α)) (k : κ)
    (h : dget d k = none) : derase d k = d := by
  induction d with
  | nil => simp [derase]
  | cons kv rest ih =>
    obtain ⟨k1, v1⟩ := kv
    by_cases hk : k1 = k
    · simp [dget, hk] at h
    · simp [dget, hk] at h
      simp [derase, hk, ih h]

theorem length_derase_some (d : List (κ × α)) (k : κ) (v : α)
    (h : dget d k = some v) : (derase d k).length + 1 = d.length := by
  induction d with
  | nil => simp [dget] at h
  | cons kv rest ih =>
    obtain ⟨k1, v1⟩ := kv
    by_cases hk : k1 = k
    · simp [derase, hk]
    · simp [dget, hk] at h
      simp [derase, hk]
      exact ih h

theorem derase_sublist (d : List (κ × α)) (k : κ) : (derase d k).Sublist d := by
  induction d with
  | nil => simp [derase]
  | cons kv rest ih =>
    obtain ⟨k1, v1⟩ := kv
    by_cases hk : k1 = k
    · simpa [derase, hk] using List.sublist_cons_self (k1, v1) rest
    · simpa [derase, hk] using ih.cons₂ (k1, v1)

theorem countP_derase (d : List (κ × α)) (k : κ) (v : α) (p : κ × α → Bool)
    (h : dget d k = some v) (hnd : (d.map Prod.fst).Nodup) :
    (derase d k).countP p + (if p (k, v) then 1 else 0) = d.countP p := by
  induction d with
  | nil => simp [dget] at h
  | cons kv rest ih =>
    obtain ⟨k1, v1⟩ := kv
    simp only [List.map_cons, List.nodup_cons] at hnd
    by_cases hk : k1 = k
    · have hv : v1 = v := by simpa [dget, hk] using h
      rw [← hk, ← hv]
      simp [derase, List.countP_cons]
    · simp [dget, hk] at h
      have ih2 := ih h hnd.2
      simp [derase, hk, List.countP_cons]
      omega

theorem countP_dset_some (d : List (κ × α)) (k : κ) (v w : α) (p : κ × α → Bool)
    (h : dget d k = some w) (hnd : (d.map Prod.fst).Nodup) :
    (dset d k v).countP p + (if p (k, w) then 1 else 0)
      = d.countP p + (if p (k, v) then 1 else 0) := by
  induction d with
  | nil => simp [dget] at h
  | cons kv rest ih =>
    obtain ⟨k1, v1⟩ := kv
    simp only [List.map_cons, List.nodup_cons] at hnd
    by_cases hk : k1 = k
    · have hv : v1 = w := by simpa [dget, hk] using h
      rw [← hk, ← hv]
      simp [dset, List.countP_cons]
      omega
    · simp [dget, hk] at h
      have ih2 := ih h hnd.2
      simp [dset, hk, List.countP_cons]
      omega

theorem mem_dset (d : List (κ × α)) (k : κ) (v : α) (kv : κ × α)
    (h : kv ∈ dset d k v) : kv ∈ d ∨ kv = (k, v) := by
  induction d with
  | nil =>
    right
    simpa [dset] using h
  | cons kv1 rest ih =>
    obtain ⟨k1, v1⟩ := kv1
    by_cases hk : k1 = k
    · simp [dset, hk] at h
      rcases h with h | h
      · right; exact h
      · left; exact List.mem_cons_of_mem _ h
    · simp [dset, hk] at h
      rcases h with h | h
      · left
        rw [h]
        exact List.mem_cons_self _ _
      · rcases ih h with h2 | h2
        · left; exact List.mem_cons_of_mem _ h2
        · right; exact h2

theorem mem_derase (d : List (κ × α)) (k : κ) (kv : κ × α)
    (h : kv ∈ derase d k) : kv ∈ d :=
  (derase_sublist d k).mem h

theorem dget_mem (d : List (κ × α)) (k : κ) (v : α) (h : dget d k = some v) :
    (k, v) ∈ d := by
  induction d with
  | nil => simp [dget] at h
  | cons kv rest ih =>
    obtain ⟨k1, v1⟩ := kv
    by_cases hk : k1 = k
    · simp [dget, hk] at h
      rw [← hk, ← h]
      exact List.mem_cons_self _ _
    · simp [dget, hk] at h
      exact List.mem_cons_of_mem _ (ih h)

end DictLemmas

theorem countVal_dset (d : List (JVal × Int)) (k K : JVal) (v : Int) :
    countVal (dset d k v) K = if K = k then v else countVal d K := by
  by_cases h : K = k
  · subst h
    simp [countVal, dget_dset_self]
  · simp [countVal, dget_dset_ne d k K v h, h]

theorem occCount_dset_none (tr : List (JVal × JVal)) (oid a K : JVal)
    (h : dget tr oid = none) :
    occCount (dset tr oid a) K = occCount tr K + (if a = K then 1 else 0) := by
  rw [occCount, dset_of_dget_none tr oid a h, List.countP_append]
  simp [occCount, List.countP_cons]

theorem occCount_dset_some (tr : List (JVal × JVal)) (oid a w K : JVal)
    (h : dget tr oid = some w) (hnd : (tr.map Prod.fst).Nodup) :
    occCount (dset tr oid a) K + (if w = K then 1 else 0)
      = occCount tr K + (if a = K then 1 else 0) := by
  have := countP_dset_some tr oid a w (fun kv => decide (kv.2 = K)) h hnd
  simpa [occCount] using this

theorem occCount_derase (tr : List (JVal × JVal)) (oid w K : JVal)
    (h : dget tr oid = some w) (hnd : (tr.map Prod.fst).Nodup) :
    occCount (derase tr oid) K + (if w = K then 1 else 0) = occCount tr K := by
  have := countP_derase tr oid w (fun kv => decide (kv.2 = K)) h hnd
  simpa [occCount] using this

theorem occCount_pos_of_mem (tr : List (JVal × JVal)) (oid w : JVal)
    (h : (oid, w) ∈ tr) : 0 < occCount tr w := by
  rw [occCount, List.countP_pos_iff]
  exact ⟨(oid, w), h, by simp⟩

theorem findCountAttr_truthy (models : List String) (xs : List JVal) (a : JVal)
    (h : findCountAttr models xs = some a) : a.truthy = true := by
  induction xs with
  | nil => simp [findCountAttr] at h
  | cons e rest ih =>
    unfold findCountAttr at h
    cases e <;> try exact ih h
    case obj ef =>
      dsimp only at h
      repeat' split at h
      all_goals first
        | exact ih h
        | (injection h with h2; rw [← h2]; simp_all)
        | simp_all

theorem findSublabelAttr_truthy (modelKey : String) (xs : List JVal) (a : JVal)
    (h : findSublabelAttr modelKey xs = some a) : a.truthy = true := by
  induction xs with
  | nil => simp [findSublabelAttr] at h
  | cons e rest ih =>
    unfold findSublabelAttr at h
    cases e <;> try exact ih h
    case obj ef =>
      dsimp only at h
      repeat' split at h
      all_goals first
        | exact ih h
        | (injection h with h2; rw [← h2]; simp_all)
        | simp_all

/-- A `setRec` decision of the attribute handler carries a truthy value. -/
theorem attrDecision_truthy (camName : String) (models : List String) (p : Payload)
    (objectId a : JVal) (h : attrDecision camName models p = .setRec objectId a) :
    a.truthy = true := by
  unfold attrDecision at h
  rcases p with _ | v
  · simp at h
  · cases v with
    | obj data =>
      dsimp only at h
      repeat' split at h
      all_goals first
        | (injection h with h1 h2; subst h2; simp_all)
        | simp_all
    | null => simp at h
    | b x => simp at h
    | num n => simp at h
    | str s2 => simp at h
    | arr xs => simp at h

/-- A `setRec` decision of the events handler carries a truthy value. -/
theorem eventDecision_truthy (camName objName : String) (models : List String)
    (p : Payload) (objectId a : JVal)
    (h : eventDecision camName objName models p = .setRec objectId a) :
    a.truthy = true := by
  unfold eventDecision at h
  rcases p with _ | v
  · simp at h
  · cases v with
    | obj data =>
      dsimp only at h
      repeat' split at h
      all_goals first
        | (injection h with h1 h2; exact findCountAttr_truthy models _ a (by rw [← h2]; assumption))
        | simp_all
    | null => simp at h
    | b x => simp at h
    | num n => simp at h
    | str s2 => simp at h
    | arr xs => simp at h

/-- A `setRec` decision of the sublabel state handler carries a truthy value. -/
theorem sublabelStateDecision_truthy (camName modelKey : String) (p : Payload)
    (objectId a : JVal)
    (h : sublabelStateDecision camName modelKey p = .setRec objectId a) :
    a.truthy = true := by
  unfold sublabelStateDecision at h
  rcases p with _ | v
  · simp at h
  · cases v with
    | obj data =>
      dsimp only at h
      repeat' split at h
      all_goals first
        | (injection h with h1 h2; subst h2; simp_all)
        | simp_all
    | null => simp at h
    | b x => simp at h
    | num n => simp at h
    | str s2 => simp at h
    | arr xs => simp at h

/-! ### The aggregate-count invariant -/

theorem decOld_of_none (s : ObjCountState) (oid : JVal)
    (hold : dget s.tracked_object_attributes oid = none) :
    decOld oid s = s.attribute_counts := by
  unfold decOld
  rw [hold]

theorem decOld_of_some (s : ObjCountState) (oid w : JVal) (c : Int)
    (hold : dget s.tracked_object_attributes oid = some w)
    (hw : w.truthy = true) (hc : dget s.attribute_counts w = some c) :
    decOld oid s = dset s.attribute_counts w (max 0 (c - 1)) := by
  unfold decOld
  rw [hold]
  simp [hw, hc]

theorem decOldRaises_of_none (s : ObjCountState) (oid : JVal)
    (hold : dget s.tracked_object_attributes oid = none) :
    decOldRaises oid s = false := by
  unfold decOldRaises
  rw [hold]

/-- A non-raising old-value check means a stored truthy old value is
hashable. -/
theorem hashable_of_decOld (s : ObjCountState) (oid w : JVal)
    (hold : dget s.tracked_object_attributes oid = some w)
    (hw : w.truthy = true) (hnr : decOldRaises oid s = false) :
    w.hashable = true := by
  unfold decOldRaises at hnr
  rw [hold] at hnr
  simp only [hw, Bool.true_and, Bool.not_eq_false'] at hnr
  exact hnr

/-- Characterisation of `setAttrFull` for an object id seen for the first
time. -/
theorem setAttrFull_of_none (s : ObjCountState) (oid a : JVal)
    (hold : dget s.tracked_object_attributes oid = none) :
    setAttrFull oid a s =
      { s with
          attribute_counts :=
            dset s.attribute_counts a (countVal s.attribute_counts a + 1),
          tracked_object_attributes := dset s.tracked_object_attributes oid a } := by
  simp [setAttrFull, decOld, hold, countVal]

/-- Characterisation of `setAttrFull` for a re-attributed object id whose old
attribute is truthy and counted. -/
theorem setAttrFull_of_some (s : ObjCountState) (oid a w : JVal) (c : Int)
    (hold : dget s.tracked_object_attributes oid = some w)
    (hw : w.truthy = true)
    (hc : dget s.attribute_counts w = some c) :
    setAttrFull oid a s =
      { s with
          attribute_counts :=
            dset (dset s.attribute_counts w (max 0 (c - 1))) a
              (countVal (dset s.attribute_counts w (max 0 (c - 1))) a + 1),
          tracked_object_attributes := dset s.tracked_object_attributes oid a } := by
  simp [setAttrFull, decOld, hold, hw, hc, countVal]

theorem bool_eq_false {b : Bool} (h : ¬ b = true) : b = false := by
  cases b
  · rfl
  · exact absurd rfl h

/-- A non-raising `setAttrOp` is exactly the completed atomic update. -/
theorem setAttrOp_not_raised (oid a : JVal) (s : ObjCountState)
    (h : (setAttrOp oid a s).raised = false) :
    decOldRaises oid s = false ∧ a.hashable = true
      ∧ setAttrOp oid a s = ⟨setAttrFull oid a s, true, false⟩ := by
  unfold setAttrOp at h ⊢
  split_ifs at h ⊢ with h1 h2 h3 <;>
    first
      | exact ⟨bool_eq_false h2, h3, rfl⟩
      | simp [raisedR] at h

/-- The reconciliation invariant of a `FrigateObjectCountSensor`: every
aggregate count equals the number of object ids currently attributed that
value, the tracker has well-formed (distinct, truthy-valued) entries, and the
counts sum to the tracker's size. -/
def InvOC (s : ObjCountState) : Prop :=
  (∀ K, countVal s.attribute_counts K = (occCount s.tracked_object_attributes K : Int))
  ∧ (s.tracked_object_attributes.map Prod.fst).Nodup
  ∧ (∀ kv ∈ s.tracked_object_attributes, kv.2.truthy = true)
  ∧ (s.attribute_counts.map Prod.snd).sum = (s.tracked_object_attributes.length : Int)

theorem InvOC_init : InvOC ocInit := by
  refine ⟨?_, ?_, ?_, ?_⟩ <;> simp [ocInit, countVal, occCount, dget]

theorem InvOC_setAttrFull (s : ObjCountState) (oid a : JVal) (ha : a.truthy = true)
    (hI : InvOC s) : InvOC (setAttrFull oid a s) := by
  obtain ⟨h1, h2, h3, h4⟩ := hI
  cases hold : dget s.tracked_object_attributes oid with
  | none =>
    rw [setAttrFull_of_none s oid a hold]
    refine ⟨?_, ?_, ?_, ?_⟩
    · intro K
      have hD := h1 K
      rw [countVal_dset, occCount_dset_none _ _ _ _ hold]
      by_cases hKa : K = a
      · rw [hKa] at hD ⊢
        split_ifs <;> push_cast <;> omega
      · have haK : ¬ (a = K) := fun hh => hKa hh.symm
        rw [if_neg hKa, if_neg haK]
        push_cast
        omega
    · exact nodup_map_fst_dset _ _ _ h2
    · intro kv hkv
      rcases mem_dset _ _ _ _ hkv with hm | hm
      · exact h3 kv hm
      · rw [hm]; exact ha
    · rw [sum_dset_int, length_dset_none _ _ _ hold]
      simp only [countVal] at h4 ⊢
      push_cast
      omega
  | some w =>
    have hw : w.truthy = true := h3 (oid, w) (dget_mem _ _ _ hold)
    have hoccpos : 0 < occCount s.tracked_object_attributes w :=
      occCount_pos_of_mem _ _ _ (dget_mem _ _ _ hold)
    cases hc : dget s.attribute_counts w with
    | none =>
      exfalso
      have hcv := h1 w
      rw [countVal, hc] at hcv
      simp at hcv
      omega
    | some c =>
      have hcv : c = (occCount s.tracked_object_attributes w : Int) := by
        have := h1 w
        rwa [countVal, hc, Option.getD_some] at this
      have hc1 : 1 ≤ c := by
        rw [hcv]
        exact_mod_cast hoccpos
      have hmax : max 0 (c - 1) = c - 1 := by omega
      rw [setAttrFull_of_some s oid a w c hold hw hc]
      refine ⟨?_, ?_, ?_, ?_⟩
      · intro K
        have hC := occCount_dset_some s.tracked_object_attributes oid a w K hold h2
        have hD := h1 K
        have hDa := h1 a
        rw [countVal_dset, countVal_dset, countVal_dset]
        by_cases hKa : K = a
        · rw [hKa] at hC hD ⊢
          by_cases haw : a = w
          · rw [← haw] at hcv hC ⊢
            split_ifs at hC ⊢ <;> first | omega | (simp_all <;> omega)
          · split_ifs at hC ⊢ <;> first | omega | (simp_all <;> omega)
        · by_cases hKw : K = w
          · rw [hKw] at hKa hC hD ⊢
            split_ifs at hC ⊢ <;> first | omega | (simp_all <;> omega)
          · split_ifs at hC ⊢ <;> first | omega | (simp_all <;> omega)
      · exact nodup_map_fst_dset _ _ _ h2
      · intro kv hkv
        rcases mem_dset _ _ _ _ hkv with hm | hm
        · exact h3 kv hm
        · rw [hm]; exact ha
      · rw [sum_dset_int, sum_dset_int, length_dset_some _ _ _ _ hold]
        simp only [countVal, hc, Option.getD_some] at h4 ⊢
        omega

/-- A non-raising `setAttrOp` preserves the full invariant. -/
theorem InvOC_setAttrOp (s : ObjCountState) (oid a : JVal) (ha : a.truthy = true)
    (hI : InvOC s) (hnr : (setAttrOp oid a s).raised = false) :
    InvOC ((setAttrOp oid a s).st) := by
  obtain ⟨-, -, heq⟩ := setAttrOp_not_raised oid a s hnr
  rw [heq]
  exact InvOC_setAttrFull s oid a ha hI

theorem InvOC_endAttrOp (s : ObjCountState) (oid : JVal) (hI : InvOC s)
    (hnr : (endAttrOp oid s).raised = false) :
    InvOC ((endAttrOp oid s).st) := by
  obtain ⟨h1, h2, h3, h4⟩ := hI
  unfold endAttrOp at hnr ⊢
  by_cases hh : ¬ oid.hashable = true
  · rw [if_pos hh] at hnr
    simp [raisedR] at hnr
  rw [if_neg hh] at hnr ⊢
  cases hold : dget s.tracked_object_attributes oid with
  | none => exact ⟨h1, h2, h3, h4⟩
  | some w =>
    rw [hold] at hnr
    dsimp only at hnr ⊢
    by_cases hwh : ¬ w.hashable = true
    · rw [if_pos hwh] at hnr
      simp at hnr
    rw [if_neg hwh] at hnr ⊢
    have hw : w.truthy = true := h3 (oid, w) (dget_mem _ _ _ hold)
    have hoccpos : 0 < occCount s.tracked_object_attributes w :=
      occCount_pos_of_mem _ _ _ (dget_mem _ _ _ hold)
    cases hc : dget s.attribute_counts w with
    | none =>
      exfalso
      have hcv := h1 w
      rw [countVal, hc] at hcv
      simp at hcv
      omega
    | some c =>
      have hcv : c = (occCount s.tracked_object_attributes w : Int) := by
        have := h1 w
        rwa [countVal, hc, Option.getD_some] at this
      have hc1 : 1 ≤ c := by
        rw [hcv]
        exact_mod_cast hoccpos
      have hmax : max 0 (c - 1) = c - 1 := by omega
      have hdec : decEnd s.attribute_counts w = dset s.attribute_counts w (max 0 (c - 1)) := by
        simp [decEnd, hc]
      refine ⟨?_, ?_, ?_, ?_⟩
      · intro K
        have hC := occCount_derase s.tracked_object_attributes oid w K hold h2
        have hD := h1 K
        dsimp only
        rw [hdec, countVal_dset]
        by_cases hKw : K = w
        · rw [hKw] at hC hD ⊢
          split_ifs at hC ⊢ <;> first | omega | (simp_all <;> omega)
        · have hwK : ¬ (w = K) := fun hh => hKw hh.symm
          rw [if_neg hKw]
          rw [if_neg hwK] at hC
          omega
      · dsimp only
        exact ((derase_sublist _ _).map Prod.fst).nodup h2
      · intro kv hkv
        exact h3 kv (mem_derase _ _ _ hkv)
      · dsimp only
        rw [hdec, sum_dset_int]
        have hlen := length_derase_some s.tracked_object_attributes oid w hold
        simp only [countVal, hc, Option.getD_some] at h4 ⊢
        rw [hmax]
        omega

theorem InvOC_attr_handler (camName : String) (models : List String)
    (s : ObjCountState) (p : Payload) (hI : InvOC s)
    (hnr : (attribute_message_received camName models s p).raised = false) :
    InvOC ((attribute_message_received camName models s p).st) := by
  unfold attribute_message_received at hnr ⊢
  cases hd : attrDecision camName models p with
  | ignore => exact hI
  | raisedE => exact hI
  | setRec oid a =>
    rw [hd] at hnr
    exact InvOC_setAttrOp s oid a (attrDecision_truthy _ _ _ _ _ hd) hI hnr
  | endTrack oid => exact hI

theorem InvOC_event_handler (camName objName : String) (models : List String)
    (s : ObjCountState) (p : Payload) (hI : InvOC s)
    (hnr : (event_message_received camName objName models s p).raised = false) :
    InvOC ((event_message_received camName objName models s p).st) := by
  unfold event_message_received at hnr ⊢
  cases hd : eventDecision camName objName models p with
  | ignore => exact hI
  | raisedE => exact hI
  | setRec oid a =>
    rw [hd] at hnr
    exact InvOC_setAttrOp s oid a (eventDecision_truthy _ _ _ _ _ _ hd) hI hnr
  | endTrack oid =>
    rw [hd] at hnr
    exact InvOC_endAttrOp s oid hI hnr

theorem InvOC_state_handler (s : ObjCountState) (payload : String) (hI : InvOC s) :
    InvOC ((oc_state_message_received s payload).st) := by
  obtain ⟨h1, h2, h3, h4⟩ := hI
  unfold oc_state_message_received
  cases pyInt payload with
  | none => exact ⟨h1, h2, h3, h4⟩
  | some n => exact ⟨h1, h2, h3, h4⟩

theorem InvOC_ocStep (camName objName : String) (models : List String)
    (s : ObjCountState) (m : OCMsg) (hI : InvOC s)
    (hnr : (ocStepRes camName objName models s m).raised = false) :
    InvOC (ocStep camName objName models s m) := by
  cases m with
  | count payload => exact InvOC_state_handler s payload hI
  | attr p => exact InvOC_attr_handler camName models s p hI hnr
  | event p => exact InvOC_event_handler camName objName models s p hI hnr

/-- The full invariant holds after any message sequence processed without an
uncaught exception. -/
theorem InvOC_cleanFoldl (camName objName : String) (models : List String) :
    ∀ (msgs : List OCMsg) (s : ObjCountState), InvOC s →
      ocCleanFrom camName objName models s msgs = true →
      InvOC (msgs.foldl (ocStep camName objName models) s) := by
  intro msgs
  induction msgs with
  | nil => intro s hI _; exact hI
  | cons m rest ih =>
    intro s hI hc
    unfold ocCleanFrom at hc
    simp only [Bool.and_eq_true, Bool.not_eq_true'] at hc
    exact ih _ (InvOC_ocStep camName objName models s m hI hc.1) hc.2

/-- The weak invariant of a `FrigateObjectCountSensor`: it holds in every
reachable state, even after a partial exception-interrupted update.  Counts
agree with occupancy at every hashable key, tracker keys are distinct, and
stored values are truthy. -/
def InvOCW (s : ObjCountState) : Prop :=
  (∀ K : JVal, K.hashable = true →
    countVal s.attribute_counts K = (occCount s.tracked_object_attributes K : Int))
  ∧ (s.tracked_object_attributes.map Prod.fst).Nodup
  ∧ (∀ kv ∈ s.tracked_object_attributes, kv.2.truthy = true)

theorem InvOCW_init : InvOCW ocInit := by
  refine ⟨?_, ?_, ?_⟩ <;> simp [ocInit, countVal, occCount, dget]

theorem InvOCW_setAttrFull (s : ObjCountState) (oid a : JVal)
    (ha : a.truthy = true) (hah : a.hashable = true)
    (hnr : decOldRaises oid s = false) (hI : InvOCW s) :
    InvOCW (setAttrFull oid a s) := by
  obtain ⟨h1, h2, h3⟩ := hI
  cases hold : dget s.tracked_object_attributes oid with
  | none =>
    rw [setAttrFull_of_none s oid a hold]
    refine ⟨?_, ?_, ?_⟩
    · intro K hK
      have hD := h1 K hK
      rw [countVal_dset, occCount_dset_none _ _ _ _ hold]
      by_cases hKa : K = a
      · rw [hKa] at hD ⊢
        split_ifs <;> push_cast <;> omega
      · have haK : ¬ (a = K) := fun hh => hKa hh.symm
        rw [if_neg hKa, if_neg haK]
        push_cast
        omega
    · exact nodup_map_fst_dset _ _ _ h2
    · intro kv hkv
      rcases mem_dset _ _ _ _ hkv with hm | hm
      · exact h3 kv hm
      · rw [hm]; exact ha
  | some w =>
    have hw : w.truthy = true := h3 (oid, w) (dget_mem _ _ _ hold)
    have hwh : w.hashable = true := hashable_of_decOld s oid w hold hw hnr
    have hoccpos : 0 < occCount s.tracked_object_attributes w :=
      occCount_pos_of_mem _ _ _ (dget_mem _ _ _ hold)
    cases hc : dget s.attribute_counts w with
    | none =>
      exfalso
      have hcv := h1 w hwh
      rw [countVal, hc] at hcv
      simp at hcv
      omega
    | some c =>
      have hcv : c = (occCount s.tracked_object_attributes w : Int) := by
        have := h1 w hwh
        rwa [countVal, hc, Option.getD_some] at this
      have hc1 : 1 ≤ c := by
        rw [hcv]
        exact_mod_cast hoccpos
      rw [setAttrFull_of_some s oid a w c hold hw hc]
      refine ⟨?_, ?_, ?_⟩
      · intro K hK
        have hC := occCount_dset_some s.tracked_object_attributes oid a w K hold h2
        have hD := h1 K hK
        have hDa := h1 a hah
        rw [countVal_dset, countVal_dset, countVal_dset]
        by_cases hKa : K = a
        · rw [hKa] at hC hD ⊢
          by_cases haw : a = w
          · rw [← haw] at hcv hC ⊢
            split_ifs at hC ⊢ <;> first | omega | (simp_all <;> omega)
          · split_ifs at hC ⊢ <;> first | omega | (simp_all <;> omega)
        · by_cases hKw : K = w
          · rw [hKw] at hKa hC hD ⊢
            split_ifs at hC ⊢ <;> first | omega | (simp_all <;> omega)
          · split_ifs at hC ⊢ <;> first | omega | (simp_all <;> omega)
      · exact nodup_map_fst_dset _ _ _ h2
      · intro kv hkv
        rcases mem_dset _ _ _ _ hkv with hm | hm
        · exact h3 kv hm
        · rw [hm]; exact ha

/-- The weak invariant is preserved even by the partial update a raising
`setAttrOp` performs (old count decremented, tracker entry overwritten, no
increment): the only key whose count and occupancy diverge is the unhashable
new value, which the weak invariant exempts. -/
theorem InvOCW_setAttrPart (s : ObjCountState) (oid a : JVal)
    (ha : a.truthy = true) (hah : a.hashable = false)
    (hnr : decOldRaises oid s = false) (hI : InvOCW s) :
    InvOCW { s with
             attribute_counts := decOld oid s,
             tracked_object_attributes := dset s.tracked_object_attributes oid a } := by
  obtain ⟨h1, h2, h3⟩ := hI
  refine ⟨?_, nodup_map_fst_dset _ _ _ h2, ?_⟩
  · intro K hK
    have haK : ¬ (a = K) := by
      intro he
      rw [he, hK] at hah
      simp at hah
    show countVal (decOld oid s) K
      = (occCount (dset s.tracked_object_attributes oid a) K : Int)
    cases hold : dget s.tracked_object_attributes oid with
    | none =>
      rw [decOld_of_none s oid hold, occCount_dset_none _ _ _ _ hold, if_neg haK]
      have hD := h1 K hK
      push_cast
      omega
    | some w =>
      have hw : w.truthy = true := h3 (oid, w) (dget_mem _ _ _ hold)
      have hwh : w.hashable = true := hashable_of_decOld s oid w hold hw hnr
      have hoccpos : 0 < occCount s.tracked_object_attributes w :=
        occCount_pos_of_mem _ _ _ (dget_mem _ _ _ hold)
      cases hc : dget s.attribute_counts w with
      | none =>
        exfalso
        have hcv := h1 w hwh
        rw [countVal, hc] at hcv
        simp at hcv
        omega
      | some c =>
        have hcv : c = (occCount s.tracked_object_attributes w : Int) := by
          have := h1 w hwh
          rwa [countVal, hc, Option.getD_some] at this
        have hc1 : 1 ≤ c := by
          rw [hcv]
          exact_mod_cast hoccpos
        have hC := occCount_dset_some s.tracked_object_attributes oid a w K hold h2
        rw [if_neg haK] at hC
        have hD := h1 K hK
        rw [decOld_of_some s oid w c hold hw hc, countVal_dset]
        by_cases hKw : K = w
        · rw [hKw] at hC hD ⊢
          split_ifs at hC ⊢ <;> first | omega | (simp_all <;> omega)
        · have hwK : ¬ (w = K) := fun hh => hKw hh.symm
          rw [if_neg hKw]
          rw [if_neg hwK] at hC
          omega
  · intro kv hkv
    rcases mem_dset _ _ _ _ hkv with hm | hm
    · exact h3 kv hm
    · rw [hm]; exact ha

theorem InvOCW_setAttrOp (s : ObjCountState) (oid a : JVal) (ha : a.truthy = true)
    (hI : InvOCW s) : InvOCW ((setAttrOp oid a s).st) := by
  unfold setAttrOp
  by_cases hh1 : ¬ oid.hashable = true
  · rw [if_pos hh1]
    exact hI
  rw [if_neg hh1]
  by_cases hh2 : decOldRaises oid s = true
  · rw [if_pos hh2]
    exact hI
  rw [if_neg hh2]
  by_cases hh3 : ¬ a.hashable = true
  · rw [if_pos hh3]
    exact InvOCW_setAttrPart s oid a ha (bool_eq_false hh3) (bool_eq_false hh2) hI
  · rw [if_neg hh3]
    exact InvOCW_setAttrFull s oid a ha (not_not.mp hh3) (bool_eq_false hh2) hI

theorem InvOCW_endAttrOp (s : ObjCountState) (oid : JVal) (hI : InvOCW s) :
    InvOCW ((endAttrOp oid s).st) := by
  obtain ⟨h1, h2, h3⟩ := hI
  unfold endAttrOp
  by_cases hh : ¬ oid.hashable = true
  · rw [if_pos hh]
    exact ⟨h1, h2, h3⟩
  rw [if_neg hh]
  cases hold : dget s.tracked_object_attributes oid with
  | none => exact ⟨h1, h2, h3⟩
  | some w =>
    have hw : w.truthy = true := h3 (oid, w) (dget_mem _ _ _ hold)
    have hoccpos : 0 < occCount s.tracked_object_attributes w :=
      occCount_pos_of_mem _ _ _ (dget_mem _ _ _ hold)
    dsimp only
    by_cases hwh : ¬ w.hashable = true
    · rw [if_pos hwh]
      refine ⟨?_, ?_, ?_⟩
      · intro K hK
        have hwK : ¬ (w = K) := by
          intro he
          rw [he] at hwh
          exact hwh hK
        have hC := occCount_derase s.tracked_object_attributes oid w K hold h2
        rw [if_neg hwK] at hC
        have hD := h1 K hK
        dsimp only
        omega
      · dsimp only
        exact ((derase_sublist _ _).map Prod.fst).nodup h2
      · intro kv hkv
        exact h3 kv (mem_derase _ _ _ hkv)
    · rw [if_neg hwh]
      have hwh2 : w.hashable = true := not_not.mp hwh
      cases hc : dget s.attribute_counts w with
      | none =>
        exfalso
        have hcv := h1 w hwh2
        rw [countVal, hc] at hcv
        simp at hcv
        omega
      | some c =>
        have hcv : c = (occCount s.tracked_object_attributes w : Int) := by
          have := h1 w hwh2
          rwa [countVal, hc, Option.getD_some] at this
        have hc1 : 1 ≤ c := by
          rw [hcv]
          exact_mod_cast hoccpos
        have hdec : decEnd s.attribute_counts w
            = dset s.attribute_counts w (max 0 (c - 1)) := by
          simp [decEnd, hc]
        refine ⟨?_, ?_, ?_⟩
        · intro K hK
          have hC := occCount_derase s.tracked_object_attributes oid w K hold h2
          have hD := h1 K hK
          dsimp only
          rw [hdec, countVal_dset]
          by_cases hKw : K = w
          · rw [hKw] at hC hD ⊢
            split_ifs at hC ⊢ <;> first | omega | (simp_all <;> omega)
          · have hwK : ¬ (w = K) := fun hh => hKw hh.symm
            rw [if_neg hKw]
            rw [if_neg hwK] at hC
            omega
        · dsimp only
          exact ((derase_sublist _ _).map Prod.fst).nodup h2
        · intro kv hkv
          exact h3 kv (mem_derase _ _ _ hkv)

theorem InvOCW_attr_handler (camName : String) (models : List String)
    (s : ObjCountState) (p : Payload) (hI : InvOCW s) :
    InvOCW ((attribute_message_received camName models s p).st) := by
  unfold attribute_message_received
  cases hd : attrDecision camName models p with
  | ignore => exact hI
  | raisedE => exact hI
  | setRec oid a => exact InvOCW_setAttrOp s oid a (attrDecision_truthy _ _ _ _ _ hd) hI
  | endTrack oid => exact hI

theorem InvOCW_event_handler (camName objName : String) (models : List String)
    (s : ObjCountState) (p : Payload) (hI : InvOCW s) :
    InvOCW ((event_message_received camName objName models s p).st) := by
  unfold event_message_received
  cases hd : eventDecision camName objName models p with
  | ignore => exact hI
  | raisedE => exact hI
  | setRec oid a => exact InvOCW_setAttrOp s oid a (eventDecision_truthy _ _ _ _ _ _ hd) hI
  | endTrack oid => exact InvOCW_endAttrOp s oid hI

theorem InvOCW_ocStep (camName objName : String) (models : List String)
    (s : ObjCountState) (m : OCMsg) (hI : InvOCW s) :
    InvOCW (ocStep camName objName models s m) := by
  cases m with
  | count payload =>
    obtain ⟨h1, h2, h3⟩ := hI
    show InvOCW ((oc_state_message_received s payload).st)
    unfold oc_state_message_received
    cases pyInt payload with
    | none => exact ⟨h1, h2, h3⟩
    | some n => exact ⟨h1, h2, h3⟩
  | attr p => exact InvOCW_attr_handler camName models s p hI
  | event p => exact InvOCW_event_handler camName objName models s p hI

theorem InvOCW_foldl (camName objName : String) (models : List String) :
    ∀ (msgs : List OCMsg) (s : ObjCountState), InvOCW s →
      InvOCW (msgs.foldl (ocStep camName objName models) s) := by
  intro msgs
  induction msgs with
  | nil => intro s hI; exact hI
  | cons m rest ih =>
    intro s hI
    exact ih _ (InvOCW_ocStep camName objName models s m hI)

theorem InvOCW_ocRun (camName objName : String) (models : List String)
    (msgs : List OCMsg) : InvOCW (ocRun camName objName models msgs) :=
  InvOCW_foldl camName objName models msgs ocInit InvOCW_init

theorem setAttrFull_tracked (s : ObjCountState) (oid a : JVal) :
    dget (setAttrFull oid a s).tracked_object_attributes oid = some a := by
  show dget (dset s.tracked_object_attributes oid a) oid = some a
  exact dget_dset_self _ _ _

/-- The completed set-attribution update applied twice with the same
arguments leaves the state unchanged: the old-value decrement removes exactly
what the new-value increment re-adds. -/
theorem setAttrFull_idem (s : ObjCountState) (oid a : JVal)
    (hah : a.hashable = true) (ha : a.truthy = true)
    (hnr : decOldRaises oid s = false) (hI : InvOCW s) :
    setAttrFull oid a (setAttrFull oid a s) = setAttrFull oid a s := by
  obtain ⟨h1, h2, h3⟩ := hI
  cases hold : dget s.tracked_object_attributes oid with
  | none =>
    rw [setAttrFull_of_none s oid a hold]
    set s1 : ObjCountState :=
      { s with
          attribute_counts :=
            dset s.attribute_counts a (countVal s.attribute_counts a + 1),
          tracked_object_attributes :=
            dset s.tracked_object_attributes oid a } with hs1
    have htr : dget s1.tracked_object_attributes oid = some a := dget_dset_self _ _ _
    have hcnt : dget s1.attribute_counts a
        = some (countVal s.attribute_counts a + 1) := dget_dset_self _ _ _
    rw [setAttrFull_of_some s1 oid a a (countVal s.attribute_counts a + 1) htr ha hcnt]
    have hcv0 : 0 ≤ countVal s.attribute_counts a := by
      rw [h1 a hah]
      exact Int.ofNat_nonneg _
    have e1 : max 0 (countVal s.attribute_counts a + 1 - 1)
        = countVal s.attribute_counts a := by omega
    rw [e1, countVal_dset, if_pos rfl, dset_dset_self, dset_eq_of_dget _ _ _ htr]
    have e2 : dset s1.attribute_counts a (countVal s.attribute_counts a + 1)
        = s1.attribute_counts := by
      rw [hs1]
      exact dset_dset_self _ _ _ _
    rw [e2]
  | some w =>
    have hw : w.truthy = true := h3 (oid, w) (dget_mem _ _ _ hold)
    have hwh : w.hashable = true := hashable_of_decOld s oid w hold hw hnr
    have hoccpos : 0 < occCount s.tracked_object_attributes w :=
      occCount_pos_of_mem _ _ _ (dget_mem _ _ _ hold)
    cases hc : dget s.attribute_counts w with
    | none =>
      exfalso
      have hcv := h1 w hwh
      rw [countVal, hc] at hcv
      simp at hcv
      omega
    | some c =>
      rw [setAttrFull_of_some s oid a w c hold hw hc]
      set counts1 := dset s.attribute_counts w (max 0 (c - 1)) with hc1def
      set s1 : ObjCountState :=
        { s with
            attribute_counts := dset counts1 a (countVal counts1 a + 1),
            tracked_object_attributes :=
              dset s.tracked_object_attributes oid a } with hs1
      have htr : dget s1.tracked_object_attributes oid = some a := dget_dset_self _ _ _
      have hcnt : dget s1.attribute_counts a
          = some (countVal counts1 a + 1) := dget_dset_self _ _ _
      rw [setAttrFull_of_some s1 oid a a (countVal counts1 a + 1) htr ha hcnt]
      have hcv0 : 0 ≤ countVal counts1 a := by
        rw [hc1def, countVal_dset]
        by_cases haw : a = w
        · rw [if_pos haw]
          omega
        · rw [if_neg haw, h1 a hah]
          exact Int.ofNat_nonneg _
      have e1 : max 0 (countVal counts1 a + 1 - 1) = countVal counts1 a := by omega
      rw [e1]
      have hs1c : s1.attribute_counts = dset counts1 a (countVal counts1 a + 1) := rfl
      generalize hgen : countVal counts1 a = v at hs1c ⊢
      rw [countVal_dset, if_pos rfl, dset_dset_self, dset_eq_of_dget _ _ _ htr]
      have e2 : dset s1.attribute_counts a (v + 1) = s1.attribute_counts := by
        rw [hs1c]
        exact dset_dset_self _ _ _ _
      rw [e2]

/-- The set-attribution step applied twice with the same hashable arguments
leaves the state of a reachable sensor unchanged — whether the step completes
(the old-value decrement removes exactly what the new-value increment
re-adds) or raises before mutating (both deliveries then leave the state
untouched). -/
theorem setAttrOp_idem (s : ObjCountState) (oid a : JVal)
    (hoid : oid.hashable = true) (hah : a.hashable = true) (ha : a.truthy = true)
    (hI : InvOCW s) :
    (setAttrOp oid a (setAttrOp oid a s).st).st = (setAttrOp oid a s).st := by
  by_cases hr : decOldRaises oid s = true
  · have he : setAttrOp oid a s = raisedR s := by
      unfold setAttrOp
      rw [if_neg (by simp [hoid]), if_pos hr]
    rw [he]
    show (setAttrOp oid a s).st = s
    rw [he]
    rfl
  · have hnr : decOldRaises oid s = false := bool_eq_false hr
    have he : setAttrOp oid a s = ⟨setAttrFull oid a s, true, false⟩ := by
      unfold setAttrOp
      rw [if_neg (by simp [hoid]), if_neg (by simp [hnr]), if_neg (by simp [hah])]
    rw [he]
    show (setAttrOp oid a (setAttrFull oid a s)).st = setAttrFull oid a s
    have hnr1 : decOldRaises oid (setAttrFull oid a s) = false := by
      unfold decOldRaises
      rw [setAttrFull_tracked]
      simp [hah]
    have he1 : setAttrOp oid a (setAttrFull oid a s)
        = ⟨setAttrFull oid a (setAttrFull oid a s), true, false⟩ := by
      unfold setAttrOp
      rw [if_neg (by simp [hoid]), if_neg (by simp [hnr1]), if_neg (by simp [hah])]
    rw [he1]
    show setAttrFull oid a (setAttrFull oid a s) = setAttrFull oid a s
    exact setAttrFull_idem s oid a hah ha hnr hI

/-- A direct classification message on the `tracked_object_update` topic. -/
def mkClassificationMsg (camName objectId modelKey attrVal : String) : Payload :=
  .json (.obj [("type", .str "classification"), ("camera", .str camName),
               ("model", .str modelKey), ("attribute", .str attrVal),
               ("id", .str objectId)])

/-- An active (`end_time` null) lifecycle event on the `events` topic carrying
one attribute entry. -/
def mkActiveAttrEvent (camName objLabel objectId modelKey attrVal : String) : Payload :=
  .json (.obj [("after", .obj
    [("camera", .str camName), ("label", .str objLabel), ("id", .str objectId),
     ("end_time", .null),
     ("current_attributes",
       .arr [.obj [("model", .str modelKey), ("attribute", .str attrVal)]])])])

theorem isEmpty_false_of_ne (s : String) (h : s ≠ "") : s.isEmpty = false := by
  cases he : s.isEmpty
  · rfl
  · exact absurd ((String.isEmpty_iff s).mp he) h

theorem attrDecision_mk (camName objectId modelKey attrVal : String)
    (models : List String) (hm : modelKey ∈ models) (hid : objectId ≠ "")
    (hv : attrVal ≠ "") :
    attrDecision camName models (mkClassificationMsg camName objectId modelKey attrVal)
      = .setRec (.str objectId) (.str attrVal) := by
  unfold attrDecision mkClassificationMsg
  simp [dget, modelInList, JVal.truthy, isEmpty_false_of_ne _ hid,
    isEmpty_false_of_ne _ hv, List.contains, List.elem_eq_true_of_mem hm, hm]

theorem eventDecision_mk (camName objName objectId modelKey attrVal : String)
    (models : List String) (hm : modelKey ∈ models) (hid : objectId ≠ "")
    (hv : attrVal ≠ "") :
    eventDecision camName objName models
        (mkActiveAttrEvent camName objName objectId modelKey attrVal)
      = .setRec (.str objectId) (.str attrVal) := by
  unfold eventDecision mkActiveAttrEvent
  simp [dget, getCurrentAttrs, findCountAttr, modelInList, JVal.truthy,
    isEmpty_false_of_ne _ hid, isEmpty_false_of_ne _ hv, List.contains,
    List.elem_eq_true_of_mem hm, hm]

/-- C3: re-delivering the same set-attribution classification message twice —
on the direct `tracked_object_update` topic, on the `events` topic, or once
from each — produces exactly the same attribute-count mapping and
object-id-to-attribute mapping (indeed the same whole state) as delivering it
once. -/
theorem objcount_set_attribution_idempotent
    (camName objName modelKey objectId attrVal : String) (models : List String)
    (msgs : List OCMsg)
    (hm : modelKey ∈ models) (hid : objectId ≠ "") (hv : attrVal ≠ "") :
    let s := ocRun camName objName models msgs
    let pd := mkClassificationMsg camName objectId modelKey attrVal
    let pe := mkActiveAttrEvent camName objName objectId modelKey attrVal
    let A := fun (st : ObjCountState) => (attribute_message_received camName models st pd).st
    let E := fun (st : ObjCountState) =>
      (event_message_received camName objName models st pe).st
    A (A s) = A s ∧ E (E s) = E s ∧ E (A s) = A s ∧ A (E s) = E s := by
  intro s pd pe A E
  have hI : InvOCW s := InvOCW_ocRun camName objName models msgs
  have hA : ∀ st : ObjCountState,
      A st = (setAttrOp (.str objectId) (.str attrVal) st).st := by
    intro st
    show (attribute_message_received camName models st pd).st = _
    unfold attribute_message_received
    rw [attrDecision_mk camName objectId modelKey attrVal models hm hid hv]
  have hE : ∀ st : ObjCountState,
      E st = (setAttrOp (.str objectId) (.str attrVal) st).st := by
    intro st
    show (event_message_received camName objName models st pe).st = _
    unfold event_message_received
    rw [eventDecision_mk camName objName objectId modelKey attrVal models hm hid hv]
  have ht : (JVal.str attrVal).truthy = true := by
    simp [JVal.truthy, isEmpty_false_of_ne _ hv]
  simp only [hA, hE]
  refine ⟨?_, ?_, ?_, ?_⟩ <;> exact setAttrOp_idem s _ _ rfl rfl ht hI

theorem objcount_set_attribution_idempotent_witness :
    ("person_orientation" ∈ ["person_orientation"]
      ∧ "obj1" ≠ ("" : String) ∧ "standing" ≠ ("" : String))
    ∧ (let s := ocRun "front_door" "person" ["person_orientation"] []
       let pd := mkClassificationMsg "front_door" "obj1" "person_orientation" "standing"
       let pe := mkActiveAttrEvent "front_door" "person" "obj1" "person_orientation" "standing"
       let A := fun (st : ObjCountState) =>
         (attribute_message_received "front_door" ["person_orientation"] st pd).st
       let E := fun (st : ObjCountState) =>
         (event_message_received "front_door" "person" ["person_orientation"] st pe).st
       A (A s) = A s ∧ E (E s) = E s ∧ E (A s) = A s ∧ A (E s) = E s) :=
  ⟨⟨by decide, by decide, by decide⟩,
    objcount_set_attribution_idempotent "front_door" "person" "person_orientation"
      "obj1" "standing" ["person_orientation"] [] (by decide) (by decide) (by decide)⟩

/-- A lifecycle event whose camera or label does not match is filtered out
before any state is read. -/
theorem eventDecision_mismatch (camName objName : String) (models : List String)
    (data af : List (String × JVal))
    (hafter : dget data "after" = some (.obj af))
    (hmis : dget af "camera" ≠ some (.str camName)
      ∨ dget af "label" ≠ some (.str objName)) :
    eventDecision camName objName models (.json (.obj data)) = .ignore := by
  unfold eventDecision
  dsimp only
  rw [hafter]
  dsimp only
  by_cases htr : (JVal.obj af).truthy = true
  · rw [if_neg (fun hh => hh htr)]
    rcases hmis with hmis | hmis
    · rw [if_pos hmis]
    · by_cases hcam : dget af "camera" ≠ some (.str camName)
      · rw [if_pos hcam]
      · rw [if_neg hcam, if_pos hmis]
  · rw [if_pos htr]

theorem sublabelEventDecision_mismatch (camName objName modelKey : String)
    (data af : List (String × JVal))
    (hafter : dget data "after" = some (.obj af))
    (hmis : dget af "camera" ≠ some (.str camName)
      ∨ dget af "label" ≠ some (.str objName)) :
    sublabelEventDecision camName objName modelKey (.json (.obj data)) = .ignore := by
  unfold sublabelEventDecision
  dsimp only
  rw [hafter]
  dsimp only
  by_cases htr : (JVal.obj af).truthy = true
  · rw [if_neg (fun hh => hh htr)]
    rcases hmis with hmis | hmis
    · rw [if_pos hmis]
    · by_cases hcam : dget af "camera" ≠ some (.str camName)
      · rw [if_pos hcam]
      · rw [if_neg hcam, if_pos hmis]
  · rw [if_pos htr]

/-- C5: a lifecycle event (in particular an end-of-track event) whose camera
field differs from the bound camera or whose label differs from the bound
object label leaves the entire state of `FrigateObjectCountSensor` and
`FrigateSublabelCountSensor` unchanged and produces no state-change
notification. -/
theorem count_sensors_ignore_foreign_events
    (camName objName modelKey sublabelClass : String) (models : List String)
    (s : ObjCountState) (s2 : SublabelCountState)
    (data af : List (String × JVal))
    (hafter : dget data "after" = some (.obj af))
    (hmis : dget af "camera" ≠ some (.str camName)
      ∨ dget af "label" ≠ some (.str objName)) :
    event_message_received camName objName models s (.json (.obj data))
        = ⟨s, false, false⟩
    ∧ sublabel_event_message_received camName objName modelKey sublabelClass s2
        (.json (.obj data)) = ⟨s2, false, false⟩ := by
  constructor
  · unfold event_message_received
    rw [eventDecision_mismatch camName objName models data af hafter hmis]
    rfl
  · unfold sublabel_event_message_received
    rw [sublabelEventDecision_mismatch camName objName modelKey data af hafter hmis]
    rfl

theorem count_sensors_ignore_foreign_events_witness :
    (dget [("after", JVal.obj [("camera", JVal.str "other_camera"),
        ("label", JVal.str "person"), ("id", JVal.str "obj2"),
        ("end_time", JVal.num 1700000000)])] "after"
      = some (JVal.obj [("camera", JVal.str "other_camera"),
        ("label", JVal.str "person"), ("id", JVal.str "obj2"),
        ("end_time", JVal.num 1700000000)]))
    ∧ (event_message_received "front_door" "person" ["person_orientation"]
          ⟨3, [(JVal.str "standing", 1)], [(JVal.str "obj2", JVal.str "standing")]⟩
          (.json (.obj [("after", JVal.obj [("camera", JVal.str "other_camera"),
            ("label", JVal.str "person"), ("id", JVal.str "obj2"),
            ("end_time", JVal.num 1700000000)])]))
        = ⟨⟨3, [(JVal.str "standing", 1)], [(JVal.str "obj2", JVal.str "standing")]⟩,
            false, false⟩
      ∧ sublabel_event_message_received "front_door" "person" "person_classifier"
          "delivery" ⟨1, [(JVal.str "obj2", JVal.str "delivery")]⟩
          (.json (.obj [("after", JVal.obj [("camera", JVal.str "other_camera"),
            ("label", JVal.str "person"), ("id", JVal.str "obj2"),
            ("end_time", JVal.num 1700000000)])]))
        = ⟨⟨1, [(JVal.str "obj2", JVal.str "delivery")]⟩, false, false⟩) :=
  ⟨by decide,
    count_sensors_ignore_foreign_events "front_door" "person" "person_classifier"
      "delivery" ["person_orientation"]
      ⟨3, [(JVal.str "standing", 1)], [(JVal.str "obj2", JVal.str "standing")]⟩
      ⟨1, [(JVal.str "obj2", JVal.str "delivery")]⟩
      [("after", JVal.obj [("camera", JVal.str "other_camera"),
        ("label", JVal.str "person"), ("id", JVal.str "obj2"),
        ("end_time", JVal.num 1700000000)])]
      [("camera", JVal.str "other_camera"), ("label", JVal.str "person"),
        ("id", JVal.str "obj2"), ("end_time", JVal.num 1700000000)]
      (by decide) (Or.inl (by decide))⟩

/-- Keys of a dict never disappear under `dset`. -/
theorem subset_map_fst_dset {κ α : Type} [DecidableEq κ] (d : List (κ × α))
    (k : κ) (v : α) : d.map Prod.fst ⊆ (dset d k v).map Prod.fst := by
  cases hg : dget d k with
  | none =>
    rw [dset_of_dget_none d k v hg]
    simp only [List.map_append]
    exact List.subset_append_left _ _
  | some w =>
    rw [map_fst_dset_some d k v w hg]
    exact fun x hx => hx

theorem keys_subset_decOld (s : ObjCountState) (oid : JVal) :
    s.attribute_counts.map Prod.fst ⊆ (decOld oid s).map Prod.fst := by
  unfold decOld
  cases hold : dget s.tracked_object_attributes oid with
  | none => exact fun x hx => hx
  | some old =>
    dsimp only
    by_cases ht : old.truthy = true
    · rw [if_pos ht]
      cases hc : dget s.attribute_counts old with
      | none => exact fun x hx => hx
      | some c =>
        rw [map_fst_dset_some _ _ _ _ hc]
        exact fun x hx => hx
    · rw [if_neg ht]
      exact fun x hx => hx

theorem keys_subset_setAttrOp (s : ObjCountState) (oid a : JVal) :
    s.attribute_counts.map Prod.fst
      ⊆ ((setAttrOp oid a s).st).attribute_counts.map Prod.fst := by
  unfold setAttrOp
  by_cases hh1 : ¬ oid.hashable = true
  · rw [if_pos hh1]
    exact fun x hx => hx
  rw [if_neg hh1]
  by_cases hh2 : decOldRaises oid s = true
  · rw [if_pos hh2]
    exact fun x hx => hx
  rw [if_neg hh2]
  by_cases hh3 : ¬ a.hashable = true
  · rw [if_pos hh3]
    exact keys_subset_decOld s oid
  · rw [if_neg hh3]
    show s.attribute_counts.map Prod.fst
      ⊆ (setAttrFull oid a s).attribute_counts.map Prod.fst
    refine List.Subset.trans (keys_subset_decOld s oid) ?_
    exact subset_map_fst_dset _ _ _

theorem keys_subset_ocStep (camName objName : String) (models : List String)
    (s : ObjCountState) (m : OCMsg) :
    s.attribute_counts.map Prod.fst
      ⊆ (ocStep camName objName models s m).attribute_counts.map Prod.fst := by
  cases m with
  | count payload =>
    show s.attribute_counts.map Prod.fst
      ⊆ ((oc_state_message_received s payload).st).attribute_counts.map Prod.fst
    unfold oc_state_message_received
    cases hp : pyInt payload <;> exact fun x hx => hx
  | attr p =>
    show s.attribute_counts.map Prod.fst
      ⊆ ((attribute_message_received camName models s p).st).attribute_counts.map Prod.fst
    unfold attribute_message_received
    cases hd : attrDecision camName models p with
    | ignore => exact fun x hx => hx
    | raisedE => exact fun x hx => hx
    | setRec oid a => exact keys_subset_setAttrOp s oid a
    | endTrack oid => exact fun x hx => hx
  | event p =>
    show s.attribute_counts.map Prod.fst
      ⊆ ((event_message_received camName objName models s p).st).attribute_counts.map Prod.fst
    unfold event_message_received
    cases hd : eventDecision camName objName models p with
    | ignore => exact fun x hx => hx
    | raisedE => exact fun x hx => hx
    | setRec oid a => exact keys_subset_setAttrOp s oid a
    | endTrack oid =>
      show s.attribute_counts.map Prod.fst
        ⊆ ((endAttrOp oid s).st).attribute_counts.map Prod.fst
      unfold endAttrOp
      by_cases hh : ¬ oid.hashable = true
      · rw [if_pos hh]
        exact fun x hx => hx
      rw [if_neg hh]
      cases hold : dget s.tracked_object_attributes oid with
      | none => exact fun x hx => hx
      | some old =>
        dsimp only
        by_cases hwh : ¬ old.hashable = true
        · rw [if_pos hwh]
          exact fun x hx => hx
        rw [if_neg hwh]
        unfold decEnd
        cases hc : dget s.attribute_counts old with
        | none => exact fun x hx => hx
        | some c =>
          rw [map_fst_dset_some _ _ _ _ hc]
          exact fun x hx => hx

theorem keys_subset_foldl (camName objName : String) (models : List String) :
    ∀ (ext : List OCMsg) (s : ObjCountState),
      s.attribute_counts.map Prod.fst
        ⊆ (ext.foldl (ocStep camName objName models) s).attribute_counts.map Prod.fst := by
  intro ext
  induction ext with
  | nil => intro s; exact fun x hx => hx
  | cons m rest ih =>
    intro s
    exact List.Subset.trans (keys_subset_ocStep camName objName models s m)
      (ih (ocStep camName objName models s m))

/-- C10: the key set of `_attribute_counts` only ever grows: an attribute key
present after some messages is still present — and still visible through
`extra_state_attributes` — after any further messages (an end-of-track event
decrements a count, possibly to zero, but never deletes its key). -/
theorem objcount_attribute_keys_persist (camName objName : String)
    (models : List String) (msgs ext : List OCMsg) (K : JVal)
    (hK : K ∈ (ocRun camName objName models msgs).attribute_counts.map Prod.fst) :
    K ∈ (extra_state_attributes
        (ocRun camName objName models (msgs ++ ext))).map Prod.fst := by
  have hrun : ocRun camName objName models (msgs ++ ext)
      = ext.foldl (ocStep camName objName models) (ocRun camName objName models msgs) := by
    unfold ocRun
    rw [List.foldl_append]
  rw [hrun]
  have hmem := keys_subset_foldl camName objName models ext
    (ocRun camName objName models msgs) hK
  unfold extra_state_attributes
  have hne : (ext.foldl (ocStep camName objName models)
      (ocRun camName objName models msgs)).attribute_counts ≠ [] := by
    intro hnil
    rw [hnil] at hmem
    simp at hmem
  rw [if_neg (by simpa [List.isEmpty_iff] using hne)]
  exact hmem

theorem objcount_attribute_keys_persist_witness :
    (JVal.str "standing" ∈ (ocRun "front_door" "person" ["person_orientation"]
        [.attr (mkClassificationMsg "front_door" "obj1" "person_orientation" "standing")]).attribute_counts.map Prod.fst)
    ∧ JVal.str "standing" ∈ (extra_state_attributes
        (ocRun "front_door" "person" ["person_orientation"]
          ([.attr (mkClassificationMsg "front_door" "obj1" "person_orientation" "standing")]
            ++ [.event (.json (.obj [("after", JVal.obj [("camera", JVal.str "front_door"),
                ("label", JVal.str "person"), ("id", JVal.str "obj1"),
                ("end_time", JVal.num 1700000000)])]))]))).map Prod.fst :=
  ⟨by decide,
    objcount_attribute_keys_persist "front_door" "person" ["person_orientation"]
      [.attr (mkClassificationMsg "front_door" "obj1" "person_orientation" "standing")]
      [.event (.json (.obj [("after", JVal.obj [("camera", JVal.str "front_door"),
        ("label", JVal.str "person"), ("id", JVal.str "obj1"),
        ("end_time", JVal.num 1700000000)])]))]
      (JVal.str "standing") (by decide)⟩

/-- C7: the global classification sensor restores its saved value only when
that value is neither "unknown" nor "unavailable" compared case-insensitively;
if the last known value was "unknown" (in any casing) the state keeps its
default. -/
theorem classification_restore_guard (last : Option JVal) (st v : String) :
    ((classification_restore last st).2 = true →
      lowerStr (classification_restore last st).1 ≠ "unknown"
        ∧ lowerStr (classification_restore last st).1 ≠ "unavailable")
    ∧ (lowerStr v = "unknown" →
        classification_restore (some (.str v)) st = (st, false)) := by
  constructor
  · intro hw
    unfold classification_restore at hw ⊢
    cases last with
    | none => simp at hw
    | some v0 =>
      dsimp only at hw ⊢
      by_cases ht : v0.truthy = true
      · rw [if_pos ht] at hw ⊢
        by_cases hg : lowerStr (pyStr v0) ≠ "unknown" ∧ lowerStr (pyStr v0) ≠ "unavailable"
        · rw [if_pos hg] at hw ⊢
          exact hg
        · rw [if_neg hg] at hw
          simp at hw
      · rw [if_neg ht] at hw
        simp at hw
  · intro hv
    unfold classification_restore
    dsimp only
    by_cases ht : (JVal.str v).truthy = true
    · rw [if_pos ht]
      have hng : ¬ (lowerStr (pyStr (JVal.str v)) ≠ "unknown"
          ∧ lowerStr (pyStr (JVal.str v)) ≠ "unavailable") := by
        intro hcon
        exact hcon.1 (by simpa [pyStr] using hv)
      rw [if_neg hng]
    · rw [if_neg ht]

theorem classification_restore_guard_witness :
    ((classification_restore (some (.str "Standing")) "Unknown").2 = true →
      lowerStr (classification_restore (some (.str "Standing")) "Unknown").1 ≠ "unknown"
        ∧ lowerStr (classification_restore (some (.str "Standing")) "Unknown").1
          ≠ "unavailable")
    ∧ (lowerStr "Unknown" = "unknown" →
        classification_restore (some (.str "Unknown")) "Unknown" = ("Unknown", false)) :=
  classification_restore_guard (some (.str "Standing")) "Unknown" "Unknown"

theorem sublabelStateDecision_fields (camName modelKey : String)
    (data : List (String × JVal)) (sl oid : JVal)
    (h1 : dget data "type" = some (.str "classification"))
    (h2 : dget data "camera" = some (.str camName))
    (h3 : dget data "model" = some (.str modelKey))
    (h4 : dget data "sub_label" = some sl) (h5 : sl.truthy = true)
    (h6 : dget data "id" = some oid) (h7 : oid.truthy = true) :
    sublabelStateDecision camName modelKey (.json (.obj data)) = .setRec oid sl := by
  unfold sublabelStateDecision
  dsimp only
  rw [if_neg (by simp [h1]), if_neg (by simp [h2]), if_neg (by simp [h3]), h4]
  dsimp only
  rw [if_neg (by simp [h5]), h6]
  dsimp only
  rw [if_neg (by simp [h7])]

/-- C8: a classification message that passes the camera and model filters of a
`FrigateSublabelOccupancySensor` but carries a (truthy) sublabel different
from the sensor's bound sublabel class removes that object id from the
tracked set (for any hashable object id — real messages carry string ids); if
every tracked id equals that object id the set becomes empty and occupancy
turns off — via the direct classification topic alone, with no end-of-track
lifecycle event involved. -/
theorem sublabel_occupancy_reclassification_removes
    (camName modelKey sublabelClass : String) (s : SublabelOccupancyState)
    (data : List (String × JVal)) (sl oid : JVal)
    (h1 : dget data "type" = some (.str "classification"))
    (h2 : dget data "camera" = some (.str camName))
    (h3 : dget data "model" = some (.str modelKey))
    (h4 : dget data "sub_label" = some sl) (h5 : sl.truthy = true)
    (h6 : dget data "id" = some oid) (h7 : oid.truthy = true)
    (h8 : oid.hashable = true)
    (hne : sl ≠ .str sublabelClass) :
    sublabel_occupancy_message_received camName modelKey sublabelClass s
        (.json (.obj data))
      = ⟨⟨decide (0 < (setDiscard s.tracked_objects oid).length),
          setDiscard s.tracked_objects oid⟩, true, false⟩
    ∧ ((∀ x ∈ s.tracked_objects, x = oid) →
        (sublabel_occupancy_message_received camName modelKey sublabelClass s
          (.json (.obj data))).st.is_on = false) := by
  have hdec := sublabelStateDecision_fields camName modelKey data sl oid
    h1 h2 h3 h4 h5 h6 h7
  have hres : sublabel_occupancy_message_received camName modelKey sublabelClass s
      (.json (.obj data))
      = ⟨⟨decide (0 < (setDiscard s.tracked_objects oid).length),
          setDiscard s.tracked_objects oid⟩, true, false⟩ := by
    unfold sublabel_occupancy_message_received
    rw [hdec]
    dsimp only
    rw [if_neg (by simp [h8]), if_neg hne]
  refine ⟨hres, ?_⟩
  intro hall
  rw [hres]
  have hnil : setDiscard s.tracked_objects oid = [] := by
    unfold setDiscard
    rw [List.filter_eq_nil_iff]
    intro a ha
    simp [hall a ha]
  dsimp only
  rw [hnil]
  rfl

theorem sublabel_occupancy_reclassification_removes_witness :
    (sublabel_occupancy_message_received "front_door" "person_classifier" "delivery"
        ⟨true, [JVal.str "obj1"]⟩
        (.json (.obj [("type", JVal.str "classification"),
          ("camera", JVal.str "front_door"), ("model", JVal.str "person_classifier"),
          ("sub_label", JVal.str "resident"), ("id", JVal.str "obj1")]))
      = ⟨⟨decide (0 < (setDiscard [JVal.str "obj1"] (JVal.str "obj1")).length),
          setDiscard [JVal.str "obj1"] (JVal.str "obj1")⟩, true, false⟩)
    ∧ ((∀ x ∈ [JVal.str "obj1"], x = JVal.str "obj1") →
        (sublabel_occupancy_message_received "front_door" "person_classifier"
          "delivery" ⟨true, [JVal.str "obj1"]⟩
          (.json (.obj [("type", JVal.str "classification"),
            ("camera", JVal.str "front_door"),
            ("model", JVal.str "person_classifier"),
            ("sub_label", JVal.str "resident"),
            ("id", JVal.str "obj1")]))).st.is_on = false) :=
  sublabel_occupancy_reclassification_removes "front_door" "person_classifier"
    "delivery" ⟨true, [JVal.str "obj1"]⟩
    [("type", JVal.str "classification"), ("camera", JVal.str "front_door"),
      ("model", JVal.str "person_classifier"), ("sub_label", JVal.str "resident"),
      ("id", JVal.str "obj1")]
    (JVal.str "resident") (JVal.str "obj1")
    (by decide) (by decide) (by decide) (by decide) (by decide) (by decide)
    (by decide) (by decide) (by decide)

/-- C4 counterexample: a `FrigateSublabelCountSensor` bound to the zone
"steps" (sublabel count sensors are constructed for zones as well as cameras,
via `get_cameras_zones_and_objects`) ignores a classification message whose
`current_zones` contains "steps" and which passes every other filter, because
its handler compares the message's `camera` field ("front_door") against the
bound name and never consults `current_zones`.  The claim says such a message
is processed. -/
theorem sublabel_count_zone_counterexample :
    sublabel_state_message_received "steps" "person_classifier" "delivery" scInit
      (.json (.obj [("type", JVal.str "classification"),
        ("camera", JVal.str "front_door"),
        ("current_zones", JVal.arr [JVal.str "steps"]),
        ("model", JVal.str "person_classifier"),
        ("sub_label", JVal.str "delivery"),
        ("id", JVal.str "obj1")]))
      = ⟨scInit, false, false⟩ := by decide

/-- A zone-scoped classification sensor ignores a message whose
`current_zones` does not contain its zone. -/
theorem objclassMsgOutcome_zone_miss (cznName acnName modelKey : String)
    (data : List (String × JVal)) (hz : cznName ≠ acnName)
    (hcheck : zoneCheck cznName data = Except.ok false) :
    objclassMsgOutcome cznName acnName modelKey (.json (.obj data)) = .ignore := by
  unfold objclassMsgOutcome
  dsimp only
  by_cases h1 : dget data "type" ≠ some (.str "classification")
  · rw [if_pos h1]
  · rw [if_neg h1]
    by_cases h2 : dget data "camera" ≠ some (.str acnName)
    · rw [if_pos h2]
    · rw [if_neg h2, if_neg hz, hcheck]

/-- A zone-scoped classification sensor processes a message whose
`current_zones` contains its zone and which passes the remaining filters. -/
theorem objclassMsgOutcome_zone_hit (cznName acnName modelKey : String)
    (data : List (String × JVal)) (sl : JVal) (hz : cznName ≠ acnName)
    (h1 : dget data "type" = some (.str "classification"))
    (h2 : dget data "camera" = some (.str acnName))
    (hcheck : zoneCheck cznName data = Except.ok true)
    (h3 : dget data "model" = some (.str modelKey))
    (h4 : dget data "sub_label" = some sl) :
    objclassMsgOutcome cznName acnName modelKey (.json (.obj data))
      = .observe (pyTitle (pyReplaceUnderscore (pyStr sl))) := by
  unfold objclassMsgOutcome
  dsimp only
  rw [if_neg (by simp [h1]), if_neg (by simp [h2]), if_neg hz, hcheck]
  dsimp only
  rw [if_neg (by simp [h3]), h4]

/-- The sublabel count handler filters on the `camera` field only. -/
theorem sublabelStateDecision_camera_miss (camName modelKey : String)
    (data : List (String × JVal))
    (hcam : dget data "camera" ≠ some (.str camName)) :
    sublabelStateDecision camName modelKey (.json (.obj data)) = .ignore := by
  unfold sublabelStateDecision
  dsimp only
  by_cases h1 : dget data "type" ≠ some (.str "classification")
  · rw [if_pos h1]
  · rw [if_neg h1, if_pos hcam]

/-- C4 amended: for the zone-scoped `FrigateObjectClassificationSensor`
(bound zone different from its actual camera) a classification message
mutates the sensor only if `current_zones` contains the bound zone, and a
message whose `current_zones` contains the zone and which passes the
remaining filters is processed; `FrigateSublabelCountSensor`, by contrast,
performs no `current_zones` check at all: it ignores every message whose
`camera` field differs from its bound camera-or-zone name, regardless of
`current_zones`. -/
theorem zone_scoped_filtering :
    (∀ (cznName acnName modelKey : String) (w : DecayWorld String) (t : Nat)
        (data : List (String × JVal)),
      cznName ≠ acnName → zoneCheck cznName data = Except.ok false →
      objclass_state_message_received cznName acnName modelKey w
          (.json (.obj data)) t = ⟨w, false, false⟩)
    ∧ (∀ (cznName acnName modelKey : String) (w : DecayWorld String) (t : Nat)
        (data : List (String × JVal)) (sl : JVal),
      cznName ≠ acnName →
      dget data "type" = some (.str "classification") →
      dget data "camera" = some (.str acnName) →
      zoneCheck cznName data = Except.ok true →
      dget data "model" = some (.str modelKey) →
      dget data "sub_label" = some sl →
      (objclass_state_message_received cznName acnName modelKey w
          (.json (.obj data)) t).wrote = true
        ∧ (objclass_state_message_received cznName acnName modelKey w
            (.json (.obj data)) t).st.value
          = pyTitle (pyReplaceUnderscore (pyStr sl)))
    ∧ (∀ (camName modelKey sublabelClass : String) (s : SublabelCountState)
        (data : List (String × JVal)),
      dget data "camera" ≠ some (.str camName) →
      sublabel_state_message_received camName modelKey sublabelClass s
          (.json (.obj data)) = ⟨s, false, false⟩) := by
  refine ⟨?_, ?_, ?_⟩
  · intro cznName acnName modelKey w t data hz hcheck
    unfold objclass_state_message_received
    rw [objclassMsgOutcome_zone_miss cznName acnName modelKey data hz hcheck]
    rfl
  · intro cznName acnName modelKey w t data sl hz h1 h2 hcheck h3 h4
    unfold objclass_state_message_received
    rw [objclassMsgOutcome_zone_hit cznName acnName modelKey data sl hz h1 h2 hcheck h3 h4]
    exact ⟨rfl, rfl⟩
  · intro camName modelKey sublabelClass s data hcam
    unfold sublabel_state_message_received
    rw [sublabelStateDecision_camera_miss camName modelKey data hcam]
    rfl

theorem zone_scoped_filtering_witness :
    (objclass_state_message_received "steps" "front_door" "person_orientation"
        (decayInit "Unknown")
        (.json (.obj [("type", JVal.str "classification"),
          ("camera", JVal.str "front_door"),
          ("current_zones", JVal.arr []),
          ("model", JVal.str "person_orientation"),
          ("sub_label", JVal.str "delivery_person")])) 0
      = ⟨decayInit "Unknown", false, false⟩)
    ∧ ((objclass_state_message_received "steps" "front_door" "person_orientation"
        (decayInit "Unknown")
        (.json (.obj [("type", JVal.str "classification"),
          ("camera", JVal.str "front_door"),
          ("current_zones", JVal.arr [JVal.str "steps"]),
          ("model", JVal.str "person_orientation"),
          ("sub_label", JVal.str "delivery_person")])) 0).wrote = true
      ∧ (objclass_state_message_received "steps" "front_door" "person_orientation"
          (decayInit "Unknown")
          (.json (.obj [("type", JVal.str "classification"),
            ("camera", JVal.str "front_door"),
            ("current_zones", JVal.arr [JVal.str "steps"]),
            ("model", JVal.str "person_orientation"),
            ("sub_label", JVal.str "delivery_person")])) 0).st.value
        = pyTitle (pyReplaceUnderscore (pyStr (JVal.str "delivery_person"))))
    ∧ (sublabel_state_message_received "steps" "person_classifier" "delivery" scInit
        (.json (.obj [("camera", JVal.str "front_door"),
          ("current_zones", JVal.arr [JVal.str "steps"])]))
      = ⟨scInit, false, false⟩) :=
  ⟨zone_scoped_filtering.1 "steps" "front_door" "person_orientation"
      (decayInit "Unknown") 0
      [("type", JVal.str "classification"), ("camera", JVal.str "front_door"),
        ("current_zones", JVal.arr []), ("model", JVal.str "person_orientation"),
        ("sub_label", JVal.str "delivery_person")]
      (by decide) rfl,
    zone_scoped_filtering.2.1 "steps" "front_door" "person_orientation"
      (decayInit "Unknown") 0
      [("type", JVal.str "classification"), ("camera", JVal.str "front_door"),
        ("current_zones", JVal.arr [JVal.str "steps"]),
        ("model", JVal.str "person_orientation"),
        ("sub_label", JVal.str "delivery_person")]
      (JVal.str "delivery_person")
      (by decide) (by decide) (by decide) rfl (by decide) (by decide),
    zone_scoped_filtering.2.2 "steps" "person_classifier" "delivery" scInit
      [("camera", JVal.str "front_door"),
        ("current_zones", JVal.arr [JVal.str "steps"])]
      (by decide)⟩

/-- C9 counterexample: an active lifecycle event whose `current_attributes`
holds two entries matching the tracked model, the first without an
`attribute` field, makes the count handler apply the SECOND entry
("standing"): the loop only `break`s after applying an entry with a truthy
attribute, so a matching entry without one is skipped rather than ending the
scan.  The claim says only the first matching entry is applied and all later
entries are ignored. -/
theorem event_first_matching_entry_counterexample :
    (event_message_received "front_door" "person" ["person_orientation"] ocInit
      (.json (.obj [("after", JVal.obj [("camera", JVal.str "front_door"),
        ("label", JVal.str "person"), ("id", JVal.str "obj1"),
        ("end_time", JVal.null),
        ("current_attributes", JVal.arr
          [JVal.obj [("model", JVal.str "person_orientation")],
           JVal.obj [("model", JVal.str "person_orientation"),
                     ("attribute", JVal.str "standing")]])])]))).st.tracked_object_attributes
      = [(JVal.str "obj1", JVal.str "standing")] := by decide

/-- Whether the count handler's scan applies an entry: its model must be
tracked and its `attribute` truthy. -/
def countEntryApplicable (models : List String) (e : JVal) : Bool :=
  match e with
  | .obj ef => modelInList (dget ef "model") models && otruthy (dget ef "attribute")
  | _ => false

/-- Whether the classification handler's scan applies an entry: its model
must match and it must carry a `sub_label` or `attribute` key. -/
def classEntryApplicable (modelKey : String) (e : JVal) : Bool :=
  match e with
  | .obj ef =>
      decide (dget ef "model" = some (.str modelKey))
        && ((dget ef "sub_label").isSome || (dget ef "attribute").isSome)
  | _ => false

theorem findCountAttr_skip (models : List String) (e : JVal) (l : List JVal)
    (h : countEntryApplicable models e = false) :
    findCountAttr models (e :: l) = findCountAttr models l := by
  cases e <;> simp only [findCountAttr]
  case obj ef =>
    unfold countEntryApplicable at h
    by_cases hm : modelInList (dget ef "model") models = true
    · rw [if_pos hm]
      simp only [hm, Bool.true_and] at h
      cases ha : dget ef "attribute" with
      | none => rfl
      | some a =>
        rw [ha] at h
        simp only [otruthy] at h
        dsimp only
        rw [if_neg (by simp [h])]
    · rw [if_neg hm]

theorem findCountAttr_apply (models : List String) (ef : List (String × JVal))
    (l : List JVal) (h : countEntryApplicable models (.obj ef) = true) :
    findCountAttr models (JVal.obj ef :: l) = dget ef "attribute" := by
  unfold countEntryApplicable at h
  simp only [Bool.and_eq_true] at h
  simp only [findCountAttr]
  rw [if_pos h.1]
  cases ha : dget ef "attribute" with
  | none =>
    rw [ha] at h
    simp [otruthy] at h
  | some a =>
    have h2 := h.2
    rw [ha] at h2
    simp only [otruthy] at h2
    dsimp only
    rw [if_pos h2]

theorem findClassEntry_skip (modelKey : String) (e : JVal) (l : List JVal)
    (h : classEntryApplicable modelKey e = false) :
    findClassEntry modelKey (e :: l) = findClassEntry modelKey l := by
  cases e <;> simp only [findClassEntry]
  case obj ef =>
    unfold classEntryApplicable at h
    by_cases hm : dget ef "model" = some (.str modelKey)
    · rw [if_neg (by simp [hm])]
      simp only [hm, decide_eq_true_eq, Bool.true_and, Bool.or_eq_false_iff] at h
      simp only [hm, decide_True, Bool.true_and] at h
      cases hsl : dget ef "sub_label" with
      | some sl =>
        rw [hsl] at h
        simp at h
      | none =>
        dsimp only
        cases hat : dget ef "attribute" with
        | some a =>
          rw [hat] at h
          simp at h
        | none => rfl
    · rw [if_pos (by simp [hm])]

theorem findClassEntry_apply (modelKey : String) (ef : List (String × JVal))
    (l : List JVal) (h : classEntryApplicable modelKey (.obj ef) = true) :
    findClassEntry modelKey (JVal.obj ef :: l)
      = (match dget ef "sub_label" with
         | some sl => some sl
         | none => dget ef "attribute") := by
  unfold classEntryApplicable at h
  simp only [Bool.and_eq_true, decide_eq_true_eq] at h
  simp only [findClassEntry]
  rw [if_neg (by simp [h.1])]
  cases hsl : dget ef "sub_label" with
  | some sl => rfl
  | none =>
    dsimp only
    cases hat : dget ef "attribute" with
    | some a => rfl
    | none =>
      have h2 := h.2
      rw [hsl, hat] at h2
      simp at h2

theorem findCountAttr_first (models : List String) :
    ∀ (l1 : List JVal), (∀ x ∈ l1, countEntryApplicable models x = false) →
      ∀ (ef : List (String × JVal)) (l2 : List JVal),
        countEntryApplicable models (.obj ef) = true →
        findCountAttr models (l1 ++ JVal.obj ef :: l2) = dget ef "attribute" := by
  intro l1
  induction l1 with
  | nil =>
    intro _ ef l2 hA
    exact findCountAttr_apply models ef l2 hA
  | cons x rest ih =>
    intro hskip ef l2 hA
    rw [List.cons_append,
      findCountAttr_skip models x _ (hskip x (List.mem_cons_self _ _))]
    exact ih (fun y hy => hskip y (List.mem_cons_of_mem _ hy)) ef l2 hA

theorem findClassEntry_first (modelKey : String) :
    ∀ (l1 : List JVal), (∀ x ∈ l1, classEntryApplicable modelKey x = false) →
      ∀ (ef : List (String × JVal)) (l2 : List JVal),
        classEntryApplicable modelKey (.obj ef) = true →
        findClassEntry modelKey (l1 ++ JVal.obj ef :: l2)
          = (match dget ef "sub_label" with
             | some sl => some sl
             | none => dget ef "attribute") := by
  intro l1
  induction l1 with
  | nil =>
    intro _ ef l2 hA
    exact findClassEntry_apply modelKey ef l2 hA
  | cons x rest ih =>
    intro hskip ef l2 hA
    rw [List.cons_append,
      findClassEntry_skip modelKey x _ (hskip x (List.mem_cons_self _ _))]
    exact ih (fun y hy => hskip y (List.mem_cons_of_mem _ hy)) ef l2 hA

/-- C9 amended: the scan over `current_attributes` applies the first entry in
list order whose model is tracked AND which carries a value — a truthy
`attribute` for the attribute-count handler, a `sub_label` or `attribute` key
for the object-classification handler — and ignores everything after that
entry; matching entries without such a value are skipped, so a later entry
can be applied when an earlier matching one carries no value. -/
theorem event_scan_applies_first_applicable_entry :
    (∀ (models : List String) (l1 : List JVal) (ef : List (String × JVal))
        (l2 : List JVal),
      (∀ x ∈ l1, countEntryApplicable models x = false) →
      countEntryApplicable models (.obj ef) = true →
      findCountAttr models (l1 ++ JVal.obj ef :: l2) = dget ef "attribute")
    ∧ (∀ (modelKey : String) (l1 : List JVal) (ef : List (String × JVal))
        (l2 : List JVal),
      (∀ x ∈ l1, classEntryApplicable modelKey x = false) →
      classEntryApplicable modelKey (.obj ef) = true →
      findClassEntry modelKey (l1 ++ JVal.obj ef :: l2)
        = (match dget ef "sub_label" with
           | some sl => some sl
           | none => dget ef "attribute")) :=
  ⟨fun models l1 ef l2 hskip hA => findCountAttr_first models l1 hskip ef l2 hA,
   fun modelKey l1 ef l2 hskip hA => findClassEntry_first modelKey l1 hskip ef l2 hA⟩

theorem event_scan_applies_first_applicable_entry_witness :
    (findCountAttr ["person_orientation"]
        ([JVal.obj [("model", JVal.str "person_orientation")]]
          ++ JVal.obj [("model", JVal.str "person_orientation"),
                ("attribute", JVal.str "standing")]
            :: [JVal.obj [("model", JVal.str "person_orientation"),
                ("attribute", JVal.str "walking")]])
      = dget [("model", JVal.str "person_orientation"),
          ("attribute", JVal.str "standing")] "attribute")
    ∧ (findClassEntry "person_classifier"
        ([JVal.obj [("model", JVal.str "other")]]
          ++ JVal.obj [("model", JVal.str "person_classifier"),
                ("sub_label", JVal.str "delivery")]
            :: [JVal.obj [("model", JVal.str "person_classifier"),
                ("sub_label", JVal.str "resident")]])
      = (match dget [("model", JVal.str "person_classifier"),
            ("sub_label", JVal.str "delivery")] "sub_label" with
         | some sl => some sl
         | none => dget [("model", JVal.str "person_classifier"),
            ("sub_label", JVal.str "delivery")] "attribute")) :=
  ⟨event_scan_applies_first_applicable_entry.1 ["person_orientation"]
      [JVal.obj [("model", JVal.str "person_orientation")]]
      [("model", JVal.str "person_orientation"), ("attribute", JVal.str "standing")]
      [JVal.obj [("model", JVal.str "person_orientation"),
        ("attribute", JVal.str "walking")]]
      (by decide) (by decide),
   event_scan_applies_first_applicable_entry.2 "person_classifier"
      [JVal.obj [("model", JVal.str "other")]]
      [("model", JVal.str "person_classifier"), ("sub_label", JVal.str "delivery")]
      [JVal.obj [("model", JVal.str "person_classifier"),
        ("sub_label", JVal.str "resident")]]
      (by decide) (by decide)⟩

/-- C2 counterexample: `FrigateObjectOccupancySensor._state_message_received`
on a non-integer payload does NOT silently ignore the message: it sets the
occupancy to off (changing the state when the sensor was on) and calls
`async_write_ha_state`. -/
theorem occupancy_malformed_payload_counterexample :
    (occupancy_state_message_received ⟨true, [], []⟩ "not_an_int").st.is_on = false
    ∧ (⟨true, [], []⟩ : OccupancyState).is_on = true
    ∧ (occupancy_state_message_received ⟨true, [], []⟩ "not_an_int").wrote = true := by
  refine ⟨?_, rfl, ?_⟩ <;> decide

theorem attrDecision_no_id (camName : String) (models : List String)
    (data : List (String × JVal)) (hid : dget data "id" = none) :
    attrDecision camName models (.json (.obj data)) = .ignore := by
  unfold attrDecision
  dsimp only
  by_cases h1 : dget data "type" ≠ some (.str "classification")
  · rw [if_pos h1]
  · rw [if_neg h1]
    by_cases h2 : dget data "camera" ≠ some (.str camName)
    · rw [if_pos h2]
    · rw [if_neg h2]
      by_cases h3 : ¬ modelInList (dget data "model") models = true
      · rw [if_pos h3]
      · rw [if_neg h3]
        cases ha : dget data "attribute" with
        | none => rfl
        | some av =>
          dsimp only
          by_cases h5 : ¬ av.truthy = true
          · rw [if_pos h5]
          · rw [if_neg h5, hid]

theorem faceMsgOutcome_missing_name (camName : String)
    (data : List (String × JVal))
    (h1 : dget data "type" = some (.str "face"))
    (h2 : dget data "camera" = some (.str camName))
    (h3 : dget data "name" = none) :
    faceMsgOutcome camName (.json (.obj data)) = .raisedO := by
  unfold faceMsgOutcome
  dsimp only
  rw [if_neg (by simp [h1]), if_neg (by simp [h2]), h3]

/-- An `lpr` message for the sensor's camera with no truthy `name` and no
`plate` key reaches `str(data["plate"])` (sensor.py line 1622), which raises
an uncaught `KeyError` (only `ValueError` is caught). -/
theorem plateMsgOutcome_missing (camName : String) (data : List (String × JVal))
    (h1 : dget data "type" = some (.str "lpr"))
    (h2 : dget data "camera" = some (.str camName))
    (h3 : otruthy (dget data "name") = false)
    (h4 : dget data "plate" = none) :
    plateMsgOutcome camName (.json (.obj data)) = .raisedO := by
  unfold plateMsgOutcome
  dsimp only
  rw [if_neg (by simp [h1]), if_neg (by simp [h2]), if_neg (by simp [h3]), h4]

/-- A lifecycle event whose `after` value is a truthy non-dict (here: a
non-empty string) raises an uncaught `AttributeError` at `after.get("camera")`
(sensor.py line 914). -/
theorem eventDecision_after_not_dict (camName objName : String)
    (models : List String) (data : List (String × JVal)) (t : String)
    (ht : t ≠ "") (hafter : dget data "after" = some (.str t)) :
    eventDecision camName objName models (.json (.obj data)) = .raisedE := by
  unfold eventDecision
  dsimp only
  rw [hafter]
  dsimp only
  rw [if_neg (by simp [JVal.truthy, isEmpty_false_of_ne _ ht])]

/-- C2 amended: the claimed silent-ignore contract holds only in part.  What
does hold: a payload that fails to decode as JSON is silently ignored by the
modeled `tracked_object_update`/`events` handlers (no exception, no state
change, no notification); a classification message missing its `id` is
ignored by the attribute handler; a non-integer payload on the plain count
topic is ignored by the count sensor's scalar handler.  Deviations: the
occupancy handler treats a non-integer count payload by setting the sensor
off and writing state — a state change and a notification; the
recognized-face handler raises an uncaught `KeyError` on a face message for
its camera missing `name`; the recognized-plate handler raises an uncaught
`KeyError` on an lpr message for its camera with no truthy `name` and no
`plate` key; the object-count events handler raises an uncaught
`AttributeError` when `after` is a truthy non-dict (shown for a non-empty
string); and a JSON payload that decodes to a non-dict raises an uncaught
`AttributeError` at the first `.get` (shown for the attribute handler on a
number). -/
theorem malformed_message_handling :
    (∀ (camName : String) (models : List String) (s : ObjCountState) (txt : String),
      attribute_message_received camName models s (.raw txt) = ⟨s, false, false⟩)
    ∧ (∀ (camName objName : String) (models : List String) (s : ObjCountState)
        (txt : String),
      event_message_received camName objName models s (.raw txt) = ⟨s, false, false⟩)
    ∧ (∀ (camName modelKey sublabelClass : String) (s : SublabelCountState)
        (txt : String),
      sublabel_state_message_received camName modelKey sublabelClass s (.raw txt)
        = ⟨s, false, false⟩)
    ∧ (∀ (camName modelKey sublabelClass : String) (s : SublabelOccupancyState)
        (txt : String),
      sublabel_occupancy_message_received camName modelKey sublabelClass s (.raw txt)
        = ⟨s, false, false⟩)
    ∧ (∀ (camName : String) (w : DecayWorld JVal) (txt : String) (t : Nat),
      face_state_message_received camName w (.raw txt) t = ⟨w, false, false⟩)
    ∧ (∀ (cznName acnName modelKey : String) (w : DecayWorld String) (txt : String)
        (t : Nat),
      objclass_state_message_received cznName acnName modelKey w (.raw txt) t
        = ⟨w, false, false⟩)
    ∧ (∀ (s : ObjCountState) (payload : String), pyInt payload = none →
      oc_state_message_received s payload = ⟨s, false, false⟩)
    ∧ (∀ (camName : String) (models : List String) (s : ObjCountState)
        (data : List (String × JVal)), dget data "id" = none →
      attribute_message_received camName models s (.json (.obj data))
        = ⟨s, false, false⟩)
    ∧ (∀ (camName : String) (w : DecayWorld JVal) (t : Nat)
        (data : List (String × JVal)),
      dget data "type" = some (.str "face") →
      dget data "camera" = some (.str camName) →
      dget data "name" = none →
      face_state_message_received camName w (.json (.obj data)) t = ⟨w, false, true⟩)
    ∧ (∀ (s : OccupancyState) (payload : String), pyInt payload = none →
      occupancy_state_message_received s payload
        = ⟨{ s with is_on := false }, true, false⟩)
    ∧ (∀ (camName : String) (w : DecayWorld String) (txt : String) (t : Nat),
      plate_state_message_received camName w (.raw txt) t = ⟨w, false, false⟩)
    ∧ (∀ (camName : String) (w : DecayWorld String) (t : Nat)
        (data : List (String × JVal)),
      dget data "type" = some (.str "lpr") →
      dget data "camera" = some (.str camName) →
      otruthy (dget data "name") = false →
      dget data "plate" = none →
      plate_state_message_received camName w (.json (.obj data)) t = ⟨w, false, true⟩)
    ∧ (∀ (camName objName : String) (models : List String) (s : ObjCountState)
        (data : List (String × JVal)) (t : String),
      t ≠ "" → dget data "after" = some (.str t) →
      event_message_received camName objName models s (.json (.obj data))
        = ⟨s, false, true⟩)
    ∧ (∀ (camName : String) (models : List String) (s : ObjCountState) (n : Int),
      attribute_message_received camName models s (.json (.num n))
        = ⟨s, false, true⟩) := by
  refine ⟨?_, ?_, ?_, ?_, ?_, ?_, ?_, ?_, ?_, ?_, ?_, ?_, ?_, ?_⟩
  · intro camName models s txt
    rfl
  · intro camName objName models s txt
    rfl
  · intro camName modelKey sublabelClass s txt
    rfl
  · intro camName modelKey sublabelClass s txt
    rfl
  · intro camName w txt t
    rfl
  · intro cznName acnName modelKey w txt t
    rfl
  · intro s payload hp
    unfold oc_state_message_received
    rw [hp]
    rfl
  · intro camName models s data hid
    unfold attribute_message_received
    rw [attrDecision_no_id camName models data hid]
    rfl
  · intro camName w t data h1 h2 h3
    unfold face_state_message_received decay_message_received
    rw [faceMsgOutcome_missing_name camName data h1 h2 h3]
    rfl
  · intro s payload hp
    unfold occupancy_state_message_received
    rw [hp]
  · intro camName w txt t
    rfl
  · intro camName w t data h1 h2 h3 h4
    unfold plate_state_message_received decay_message_received
    rw [plateMsgOutcome_missing camName data h1 h2 h3 h4]
    rfl
  · intro camName objName models s data t ht hafter
    unfold event_message_received
    rw [eventDecision_after_not_dict camName objName models data t ht hafter]
    rfl
  · intro camName models s n
    rfl

theorem malformed_message_handling_witness :
    (attribute_message_received "front_door" ["person_orientation"] ocInit
        (.raw "not json") = ⟨ocInit, false, false⟩)
    ∧ (pyInt "garbage" = none
        ∧ oc_state_message_received ocInit "garbage" = ⟨ocInit, false, false⟩)
    ∧ (dget [("type", JVal.str "face"), ("camera", JVal.str "front_door")] "name" = none
        ∧ face_state_message_received "front_door" (decayInit (JVal.str "Unknown"))
            (.json (.obj [("type", JVal.str "face"),
              ("camera", JVal.str "front_door")])) 0
          = ⟨decayInit (JVal.str "Unknown"), false, true⟩)
    ∧ (pyInt "garbage" = none
        ∧ occupancy_state_message_received ⟨true, [], []⟩ "garbage"
          = ⟨{ (⟨true, [], []⟩ : OccupancyState) with is_on := false }, true, false⟩)
    ∧ (dget [("type", JVal.str "lpr"), ("camera", JVal.str "front_door")] "plate" = none
        ∧ plate_state_message_received "front_door" (decayInit "Unknown")
            (.json (.obj [("type", JVal.str "lpr"),
              ("camera", JVal.str "front_door")])) 0
          = ⟨decayInit "Unknown", false, true⟩) :=
  ⟨malformed_message_handling.1 "front_door" ["person_orientation"] ocInit "not json",
   ⟨by decide,
     malformed_message_handling.2.2.2.2.2.2.1 ocInit "garbage" (by decide)⟩,
   ⟨by decide,
     malformed_message_handling.2.2.2.2.2.2.2.2.1 "front_door"
       (decayInit (JVal.str "Unknown")) 0
       [("type", JVal.str "face"), ("camera", JVal.str "front_door")]
       (by decide) (by decide) (by decide)⟩,
   ⟨by decide,
     malformed_message_handling.2.2.2.2.2.2.2.2.2.1 ⟨true, [], []⟩ "garbage"
       (by decide)⟩,
   ⟨by decide,
     malformed_message_handling.2.2.2.2.2.2.2.2.2.2.2.1 "front_door"
       (decayInit "Unknown") 0
       [("type", JVal.str "lpr"), ("camera", JVal.str "front_door")]
       (by decide) (by decide) (by decide) (by decide)⟩⟩

/-! ### Decay-timer trace lemmas -/

/-- The time of the last event of `l`, or `lastT` if `l` is empty: the value
the validity predicate threads forward. -/
def endTimeD (lastT : Nat) (l : List DecayEv) : Nat :=
  l.foldl (fun _ e => evTime e) lastT

theorem map_id_cancelTimer (l : List Timer) (i : Nat) :
    (cancelTimer l i).map Timer.id = l.map Timer.id := by
  induction l with
  | nil => rfl
  | cons tm rest ih =>
    unfold cancelTimer at ih ⊢
    by_cases h : tm.id = i <;> simp [h, ih]

theorem map_id_markFired (l : List Timer) (i : Nat) :
    (markFired l i).map Timer.id = l.map Timer.id := by
  induction l with
  | nil => rfl
  | cons tm rest ih =>
    unfold markFired at ih ⊢
    by_cases h : tm.id = i <;> simp [h, ih]

theorem cancelTimer_live (l : List Timer) (i : Nat) (tm : Timer)
    (h : tm ∈ cancelTimer l i) (hlive : timerLive tm = true) :
    tm ∈ l ∧ tm.id ≠ i := by
  unfold cancelTimer at h
  rcases List.mem_map.mp h with ⟨tm0, htm0, heq⟩
  by_cases hid : tm0.id = i
  · rw [if_pos hid] at heq
    rw [← heq] at hlive
    simp [timerLive] at hlive
  · rw [if_neg hid] at heq
    subst heq
    exact ⟨htm0, hid⟩

theorem markFired_live (l : List Timer) (i : Nat) (tm : Timer)
    (h : tm ∈ markFired l i) (hlive : timerLive tm = true) :
    tm ∈ l ∧ tm.id ≠ i := by
  unfold markFired at h
  rcases List.mem_map.mp h with ⟨tm0, htm0, heq⟩
  by_cases hid : tm0.id = i
  · rw [if_pos hid] at heq
    rw [← heq] at hlive
    simp [timerLive] at hlive
  · rw [if_neg hid] at heq
    subst heq
    exact ⟨htm0, hid⟩

/-- The scheduler invariant of one decaying sensor: timer ids are bounded by
the id counter and distinct, and every live (scheduled, not cancelled, not
fired) timer is the one the sensor's cancellation handle points to. -/
def InvD {σ : Type} (w : DecayWorld σ) : Prop :=
  (∀ tm ∈ w.timers, tm.id < w.nextId)
  ∧ (w.timers.map Timer.id).Nodup
  ∧ (∀ tm ∈ w.timers, timerLive tm = true → w.handle = some tm.id)

theorem InvD_init {σ : Type} (v0 : σ) : InvD (decayInit v0) := by
  refine ⟨?_, ?_, ?_⟩ <;> simp [decayInit]

theorem cancelHandle_map_id {σ : Type} (w : DecayWorld σ) :
    (cancelHandle w.timers w.handle).map Timer.id = w.timers.map Timer.id := by
  cases w.handle <;> simp [cancelHandle, map_id_cancelTimer]

theorem cancelHandle_live {σ : Type} (w : DecayWorld σ) (tm : Timer)
    (hI : InvD w) (h : tm ∈ cancelHandle w.timers w.handle)
    (hlive : timerLive tm = true) : False := by
  obtain ⟨hb, hnd, hh⟩ := hI
  cases hhd : w.handle with
  | none =>
    rw [hhd] at h
    simp only [cancelHandle] at h
    have hcon := hh tm h hlive
    rw [hhd] at hcon
    exact Option.noConfusion hcon
  | some hdl =>
    rw [hhd] at h
    simp only [cancelHandle] at h
    obtain ⟨hmem, hne⟩ := cancelTimer_live w.timers hdl tm h hlive
    have hcon := hh tm hmem hlive
    rw [hhd] at hcon
    exact hne (Option.some.inj hcon).symm

theorem InvD_schedule {σ : Type} (w : DecayWorld σ) (v : σ) (t : Nat)
    (hI : InvD w) : InvD (scheduleDecay { w with value := v } t) := by
  obtain ⟨hb, hnd, hh⟩ := hI
  unfold scheduleDecay
  refine ⟨?_, ?_, ?_⟩
  · intro tm htm
    dsimp only at htm ⊢
    rcases List.mem_append.mp htm with hm | hm
    · have hid : tm.id ∈ (cancelHandle w.timers w.handle).map Timer.id :=
        List.mem_map_of_mem _ hm
      rw [cancelHandle_map_id w] at hid
      rcases List.mem_map.mp hid with ⟨tm0, htm0, heq⟩
      have := hb tm0 htm0
      omega
    · simp at hm
      rw [hm]
      exact Nat.lt_succ_self _
  · dsimp only
    rw [List.map_append, cancelHandle_map_id w]
    rw [List.nodup_append]
    refine ⟨hnd, List.nodup_singleton _, ?_⟩
    intro a ha hb2
    simp at hb2
    rcases List.mem_map.mp ha with ⟨tm0, htm0, heq⟩
    have := hb tm0 htm0
    omega
  · intro tm htm hlive
    dsimp only at htm ⊢
    rcases List.mem_append.mp htm with hm | hm
    · exact (cancelHandle_live w tm ⟨hb, hnd, hh⟩ hm hlive).elim
    · simp at hm
      rw [hm]

theorem InvD_fire {σ : Type} (idle : σ) (w : DecayWorld σ) (i : Nat)
    (hex : ∃ tmf ∈ w.timers, tmf.id = i ∧ timerLive tmf = true) (hI : InvD w) :
    InvD (fireDecay idle w i) := by
  obtain ⟨hb, hnd, hh⟩ := hI
  obtain ⟨tmf, htmf, hid, hlivef⟩ := hex
  unfold fireDecay
  refine ⟨?_, ?_, ?_⟩
  · intro tm htm
    dsimp only at htm ⊢
    have hmap : tm.id ∈ (markFired w.timers i).map Timer.id :=
      List.mem_map_of_mem _ htm
    rw [map_id_markFired] at hmap
    rcases List.mem_map.mp hmap with ⟨tm0, htm0, heq⟩
    have := hb tm0 htm0
    omega
  · dsimp only
    rw [map_id_markFired]
    exact hnd
  · intro tm htm hlive
    dsimp only at htm ⊢
    obtain ⟨hmem, hne⟩ := markFired_live w.timers i tm htm hlive
    have h1 := hh tm hmem hlive
    have h2 := hh tmf htmf hlivef
    rw [h1] at h2
    have h3 : tm.id = tmf.id := Option.some.inj h2
    exact (hne (h3.trans hid)).elim

theorem InvD_step {σ : Type} (f : Payload → MsgOutcome σ) (idle : σ)
    (w : DecayWorld σ) (lastT : Nat) (e : DecayEv)
    (hok : decayEvOk w lastT e = true) (hI : InvD w) :
    InvD (decayStep f idle w e) := by
  cases e with
  | msg p t =>
    show InvD ((decay_message_received (f p) w t).st)
    cases f p with
    | ignore => exact hI
    | raisedO => exact hI
    | observe v => exact InvD_schedule w v t hI
  | fire i t =>
    show InvD (fireDecay idle w i)
    refine InvD_fire idle w i ?_ hI
    unfold decayEvOk at hok
    simp only [Bool.and_eq_true, List.any_eq_true, decide_eq_true_eq] at hok
    obtain ⟨_, tmf, htmf, ⟨hidf, hlivef⟩, _⟩ := hok
    exact ⟨tmf, htmf, hidf, hlivef⟩

theorem InvD_run {σ : Type} (f : Payload → MsgOutcome σ) (idle : σ) :
    ∀ (tr : List DecayEv) (w : DecayWorld σ) (lastT : Nat), InvD w →
      decayValid f idle w lastT tr = true →
      InvD (decayRunFrom f idle w tr) := by
  intro tr
  induction tr with
  | nil =>
    intro w lastT hI _
    exact hI
  | cons e rest ih =>
    intro w lastT hI hv
    unfold decayValid at hv
    simp only [Bool.and_eq_true] at hv
    exact ih _ _ (InvD_step f idle w lastT e hv.1 hI) hv.2

theorem pending_le_one {σ : Type} (w : DecayWorld σ) (hI : InvD w) :
    (pendingTimers w).length ≤ 1 := by
  obtain ⟨hb, hnd, hh⟩ := hI
  cases hp : pendingTimers w with
  | nil => simp
  | cons tm1 rest =>
    cases rest with
    | nil => simp
    | cons tm2 rest2 =>
      exfalso
      have hsub : (pendingTimers w).Sublist w.timers := List.filter_sublist _
      have hnd2 : ((pendingTimers w).map Timer.id).Nodup :=
        (hsub.map Timer.id).nodup hnd
      have h1 : tm1 ∈ pendingTimers w := by
        rw [hp]
        exact List.mem_cons_self _ _
      have h2 : tm2 ∈ pendingTimers w := by
        rw [hp]
        exact List.mem_cons_of_mem _ (List.mem_cons_self _ _)
      have hl1 := List.mem_filter.mp h1
      have hl2 := List.mem_filter.mp h2
      have e1 := hh tm1 hl1.1 hl1.2
      have e2 := hh tm2 hl2.1 hl2.2
      have hne : tm1.id ≠ tm2.id := by
        rw [hp] at hnd2
        simp only [List.map_cons, List.nodup_cons, List.mem_cons] at hnd2
        exact fun hcon => hnd2.1 (Or.inl hcon)
      rw [e1] at e2
      exact hne (Option.some.inj e2)

theorem decayValid_append {σ : Type} (f : Payload → MsgOutcome σ) (idle : σ) :
    ∀ (l1 l2 : List DecayEv) (w : DecayWorld σ) (lastT : Nat),
      decayValid f idle w lastT (l1 ++ l2) = true →
      decayValid f idle w lastT l1 = true
        ∧ decayValid f idle (decayRunFrom f idle w l1) (endTimeD lastT l1) l2 = true := by
  intro l1
  induction l1 with
  | nil =>
    intro l2 w lastT h
    exact ⟨rfl, h⟩
  | cons e rest ih =>
    intro l2 w lastT h
    rw [List.cons_append] at h
    unfold decayValid at h
    simp only [Bool.and_eq_true] at h
    obtain ⟨hok, hrest⟩ := h
    obtain ⟨ha, hb2⟩ := ih l2 _ _ hrest
    refine ⟨?_, hb2⟩
    unfold decayValid
    simp only [Bool.and_eq_true]
    exact ⟨hok, ha⟩

theorem scheduled_live_fireAt {σ : Type} (w : DecayWorld σ) (v : σ) (t : Nat)
    (hI : InvD w) :
    ∀ tm ∈ (scheduleDecay { w with value := v } t).timers, timerLive tm = true →
      tm.fireAt = t + 60 := by
  intro tm htm hlive
  unfold scheduleDecay at htm
  dsimp only at htm
  rcases List.mem_append.mp htm with hm | hm
  · exact (cancelHandle_live w tm hI hm hlive).elim
  · simp at hm
    rw [hm]

theorem decay_mid_stable {σ : Type} (f : Payload → MsgOutcome σ) (idle : σ)
    (T : Nat) :
    ∀ (mid : List DecayEv) (w : DecayWorld σ) (lastT : Nat),
      (∀ tm ∈ w.timers, timerLive tm = true → tm.fireAt = T) →
      (∀ e ∈ mid, evTime e < T) →
      (∀ q t2, DecayEv.msg q t2 ∈ mid → ∀ u, f q ≠ .observe u) →
      decayValid f idle w lastT mid = true →
      decayRunFrom f idle w mid = w := by
  intro mid
  induction mid with
  | nil =>
    intro w lastT _ _ _ _
    rfl
  | cons e rest ih =>
    intro w lastT hfire htime hobs hv
    unfold decayValid at hv
    simp only [Bool.and_eq_true] at hv
    obtain ⟨hok, hrest⟩ := hv
    cases e with
    | msg q t2 =>
      have hstep : decayStep f idle w (.msg q t2) = w := by
        show (decay_message_received (f q) w t2).st = w
        cases hfq : f q with
        | ignore => rfl
        | raisedO => rfl
        | observe u => exact absurd hfq (hobs q t2 (List.mem_cons_self _ _) u)
      show decayRunFrom f idle (decayStep f idle w (.msg q t2)) rest = w
      rw [hstep]
      rw [hstep] at hrest
      exact ih w (evTime (.msg q t2)) hfire
        (fun e2 he2 => htime e2 (List.mem_cons_of_mem _ he2))
        (fun q2 t3 hm u => hobs q2 t3 (List.mem_cons_of_mem _ hm) u) hrest
    | fire i t2 =>
      exfalso
      unfold decayEvOk at hok
      simp only [Bool.and_eq_true, List.any_eq_true, decide_eq_true_eq] at hok
      obtain ⟨hle, tmf, htmf, ⟨hidf, hlivef⟩, hfaf⟩ := hok
      have hT := hfire tmf htmf hlivef
      have ht2 : t2 < T := htime (.fire i t2) (List.mem_cons_self _ _)
      omega

/-- C6: for every decaying last-value sensor (recognized face, recognized
plate, object classification): (1) along every admissible trace at most one
decay callback is ever pending; (2) a matching observation sets the current
value, cancels the previously scheduled callback, and schedules a fresh one
exactly 60 seconds ahead; (3) when a callback fires the value resets to the
idle sentinel and the handle is cleared; (4) after an observation, as long as
every later event happens less than 60 seconds after it and no further
observation arrives, the value never reverts to idle; and (5) matching face,
plate and object-classification messages are observations of this protocol. -/
theorem decay_timer_protocol :
    (∀ (σ : Type) (f : Payload → MsgOutcome σ) (idle v0 : σ) (tr : List DecayEv),
      decayValid f idle (decayInit v0) 0 tr = true →
      (pendingTimers (decayRunFrom f idle (decayInit v0) tr)).length ≤ 1)
    ∧ (∀ (σ : Type) (f : Payload → MsgOutcome σ) (v : σ) (p : Payload)
        (w : DecayWorld σ) (t : Nat),
      f p = .observe v →
      decay_message_received (f p) w t
        = ⟨⟨v, some w.nextId,
            cancelHandle w.timers w.handle ++ [⟨w.nextId, t + 60, false, false⟩],
            w.nextId + 1⟩, true, false⟩)
    ∧ (∀ (σ : Type) (f : Payload → MsgOutcome σ) (idle v0 : σ)
        (tr : List DecayEv) (i t : Nat),
      decayValid f idle (decayInit v0) 0 (tr ++ [.fire i t]) = true →
      (decayRunFrom f idle (decayInit v0) (tr ++ [.fire i t])).value = idle
        ∧ (decayRunFrom f idle (decayInit v0) (tr ++ [.fire i t])).handle = none)
    ∧ (∀ (σ : Type) (f : Payload → MsgOutcome σ) (idle v0 : σ)
        (start mid : List DecayEv) (p : Payload) (t1 : Nat) (v : σ),
      f p = .observe v →
      decayValid f idle (decayInit v0) 0 (start ++ DecayEv.msg p t1 :: mid) = true →
      (∀ e ∈ mid, evTime e < t1 + 60) →
      (∀ q t2, DecayEv.msg q t2 ∈ mid → ∀ u, f q ≠ .observe u) →
      (decayRunFrom f idle (decayInit v0) (start ++ DecayEv.msg p t1 :: mid)).value = v)
    ∧ (∀ camName nm : String,
      faceMsgOutcome camName (.json (.obj [("type", .str "face"),
        ("camera", .str camName), ("name", .str nm)])) = .observe (.str nm))
    ∧ (∀ camName nm : String, nm ≠ "" →
      plateMsgOutcome camName (.json (.obj [("type", .str "lpr"),
        ("camera", .str camName), ("name", .str nm)]))
        = .observe (pyTitle (pyStr (.str nm))))
    ∧ (∀ camName modelKey sl : String,
      objclassMsgOutcome camName camName modelKey (.json (.obj
        [("type", .str "classification"), ("camera", .str camName),
          ("model", .str modelKey), ("sub_label", .str sl)]))
        = .observe (pyTitle (pyReplaceUnderscore (pyStr (.str sl))))) := by
  refine ⟨?_, ?_, ?_, ?_, ?_, ?_, ?_⟩
  · intro σ f idle v0 tr hv
    exact pending_le_one _ (InvD_run f idle tr _ 0 (InvD_init v0) hv)
  · intro σ f v p w t hobs
    rw [hobs]
    rfl
  · intro σ f idle v0 tr i t _
    unfold decayRunFrom
    rw [List.foldl_append]
    exact ⟨rfl, rfl⟩
  · intro σ f idle v0 start mid p t1 v hobsv hv htime hnoobs
    obtain ⟨hv1, hv2⟩ :=
      decayValid_append f idle start (DecayEv.msg p t1 :: mid) (decayInit v0) 0 hv
    have hI1 : InvD (decayRunFrom f idle (decayInit v0) start) :=
      InvD_run f idle start _ 0 (InvD_init v0) hv1
    unfold decayValid at hv2
    simp only [Bool.and_eq_true] at hv2
    obtain ⟨hok2, hvmid⟩ := hv2
    set w1 := decayRunFrom f idle (decayInit v0) start with hw1
    have hstep : decayStep f idle w1 (.msg p t1)
        = scheduleDecay { w1 with value := v } t1 := by
      show (decay_message_received (f p) w1 t1).st = _
      rw [hobsv]
      rfl
    have hrun : decayRunFrom f idle (decayInit v0) (start ++ DecayEv.msg p t1 :: mid)
        = decayRunFrom f idle (decayStep f idle w1 (.msg p t1)) mid := by
      unfold decayRunFrom
      rw [List.foldl_append]
      rfl
    rw [hrun, hstep]
    have hvmid2 : decayValid f idle (scheduleDecay { w1 with value := v } t1) t1 mid
        = true := by
      rw [← hstep]
      exact hvmid
    rw [decay_mid_stable f idle (t1 + 60) mid (scheduleDecay { w1 with value := v } t1)
      t1 (scheduled_live_fireAt w1 v t1 hI1) htime hnoobs hvmid2]
    rfl
  · intro camName nm
    simp [faceMsgOutcome, dget]
  · intro camName nm hnm
    simp [plateMsgOutcome, dget, otruthy, JVal.truthy, isEmpty_false_of_ne _ hnm]
  · intro camName modelKey sl
    simp [objclassMsgOutcome, dget]

theorem decay_timer_protocol_witness :
    (decayValid (faceMsgOutcome "front_door") (JVal.str "None")
        (decayInit (JVal.str "Unknown")) 0
        [DecayEv.msg (.json (.obj [("type", JVal.str "face"),
          ("camera", JVal.str "front_door"), ("name", JVal.str "Alice")])) 5] = true
      ∧ (pendingTimers (decayRunFrom (faceMsgOutcome "front_door") (JVal.str "None")
          (decayInit (JVal.str "Unknown"))
          [DecayEv.msg (.json (.obj [("type", JVal.str "face"),
            ("camera", JVal.str "front_door"), ("name", JVal.str "Alice")])) 5])).length
        ≤ 1)
    ∧ (decayValid (faceMsgOutcome "front_door") (JVal.str "None")
        (decayInit (JVal.str "Unknown")) 0
        ([DecayEv.msg (.json (.obj [("type", JVal.str "face"),
          ("camera", JVal.str "front_door"), ("name", JVal.str "Alice")])) 0]
          ++ [DecayEv.fire 0 60]) = true
      ∧ (decayRunFrom (faceMsgOutcome "front_door") (JVal.str "None")
          (decayInit (JVal.str "Unknown"))
          ([DecayEv.msg (.json (.obj [("type", JVal.str "face"),
            ("camera", JVal.str "front_door"), ("name", JVal.str "Alice")])) 0]
            ++ [DecayEv.fire 0 60])).value = JVal.str "None")
    ∧ ((decayRunFrom (faceMsgOutcome "front_door") (JVal.str "None")
          (decayInit (JVal.str "Unknown"))
          ([] ++ DecayEv.msg (.json (.obj [("type", JVal.str "face"),
            ("camera", JVal.str "front_door"), ("name", JVal.str "Alice")])) 0
            :: [])).value = JVal.str "Alice")
    ∧ (faceMsgOutcome "front_door" (.json (.obj [("type", JVal.str "face"),
        ("camera", JVal.str "front_door"), ("name", JVal.str "Alice")]))
      = .observe (JVal.str "Alice")) :=
  ⟨⟨by decide,
    decay_timer_protocol.1 JVal (faceMsgOutcome "front_door") (JVal.str "None")
      (JVal.str "Unknown")
      [DecayEv.msg (.json (.obj [("type", JVal.str "face"),
        ("camera", JVal.str "front_door"), ("name", JVal.str "Alice")])) 5]
      (by decide)⟩,
   ⟨by decide,
    (decay_timer_protocol.2.2.1 JVal (faceMsgOutcome "front_door") (JVal.str "None")
      (JVal.str "Unknown")
      [DecayEv.msg (.json (.obj [("type", JVal.str "face"),
        ("camera", JVal.str "front_door"), ("name", JVal.str "Alice")])) 0]
      0 60 (by decide)).1⟩,
   decay_timer_protocol.2.2.2.1 JVal (faceMsgOutcome "front_door") (JVal.str "None")
      (JVal.str "Unknown") [] []
      (.json (.obj [("type", JVal.str "face"),
        ("camera", JVal.str "front_door"), ("name", JVal.str "Alice")]))
      0 (JVal.str "Alice") (by decide) (by decide)
      (by intro e he; simp at he) (by intro q t2 hm; simp at hm),
   decay_timer_protocol.2.2.2.2.1 "front_door" "Alice"⟩

/-- C1 counterexample: a single classification message whose truthy attribute
value is a list (`"attribute": ["standing"]`) makes
`_attribute_message_received` perform the line-886 tracker assignment and then
raise an uncaught `TypeError` at line 889 (`except (ValueError, KeyError)`
does not catch it), leaving the tracker with one entry while every aggregate
count is absent: the sum of counts is 0 but the tracker holds 1 entry, and
the count recorded for the attributed value is 0 while one object id is
attributed it — the claimed invariant is violated by a sequence the claim
quantifies over. -/
theorem objcount_invariant_violation_counterexample :
    ((attribute_message_received "front_door" ["person_orientation"] ocInit
        (.json (.obj [("type", JVal.str "classification"),
          ("camera", JVal.str "front_door"),
          ("model", JVal.str "person_orientation"),
          ("attribute", JVal.arr [JVal.str "standing"]),
          ("id", JVal.str "obj1")]))).raised = true)
    ∧ ((attribute_message_received "front_door" ["person_orientation"] ocInit
        (.json (.obj [("type", JVal.str "classification"),
          ("camera", JVal.str "front_door"),
          ("model", JVal.str "person_orientation"),
          ("attribute", JVal.arr [JVal.str "standing"]),
          ("id", JVal.str "obj1")]))).st.tracked_object_attributes
      = [(JVal.str "obj1", JVal.arr [JVal.str "standing"])])
    ∧ (((attribute_message_received "front_door" ["person_orientation"] ocInit
        (.json (.obj [("type", JVal.str "classification"),
          ("camera", JVal.str "front_door"),
          ("model", JVal.str "person_orientation"),
          ("attribute", JVal.arr [JVal.str "standing"]),
          ("id", JVal.str "obj1")]))).st.attribute_counts.map Prod.snd).sum = 0)
    ∧ (countVal (attribute_message_received "front_door" ["person_orientation"] ocInit
        (.json (.obj [("type", JVal.str "classification"),
          ("camera", JVal.str "front_door"),
          ("model", JVal.str "person_orientation"),
          ("attribute", JVal.arr [JVal.str "standing"]),
          ("id", JVal.str "obj1")]))).st.attribute_counts
        (JVal.arr [JVal.str "standing"]) = 0)
    ∧ (occCount (attribute_message_received "front_door" ["person_orientation"] ocInit
        (.json (.obj [("type", JVal.str "classification"),
          ("camera", JVal.str "front_door"),
          ("model", JVal.str "person_orientation"),
          ("attribute", JVal.arr [JVal.str "standing"]),
          ("id", JVal.str "obj1")]))).st.tracked_object_attributes
        (JVal.arr [JVal.str "standing"]) = 1) := by
  refine ⟨?_, ?_, ?_, ?_, ?_⟩ <;> decide

/-- C1 amended: after any sequence of messages that a
`FrigateObjectCountSensor` processes without an uncaught exception, the
aggregate count recorded for every attribute value `K` equals the number of
tracked object ids whose currently recorded attribution is `K`; consequently
the sum of all aggregate counts equals the size of the
object-id-to-attribute mapping, and no count is ever negative (every
decrement in the handlers is floor-clamped at zero).  The restriction is
necessary: a truthy unhashable attribute value makes the handler raise an
uncaught `TypeError` between the tracker assignment and the count increment,
breaking the invariant (see the counterexample). -/
theorem objcount_aggregate_invariant (camName objName : String)
    (models : List String) (msgs : List OCMsg) (K : JVal)
    (hclean : ocClean camName objName models msgs = true) :
    countVal (ocRun camName objName models msgs).attribute_counts K
        = (occCount (ocRun camName objName models msgs).tracked_object_attributes K : Int)
      ∧ ((ocRun camName objName models msgs).attribute_counts.map Prod.snd).sum
        = ((ocRun camName objName models msgs).tracked_object_attributes.length : Int)
      ∧ (0 : Int) ≤ countVal (ocRun camName objName models msgs).attribute_counts K := by
  obtain ⟨h1, h2, h3, h4⟩ :=
    InvOC_cleanFoldl camName objName models msgs ocInit InvOC_init hclean
  refine ⟨h1 K, h4, ?_⟩
  show (0 : Int)
    ≤ countVal (msgs.foldl (ocStep camName objName models) ocInit).attribute_counts K
  rw [h1 K]
  exact Int.ofNat_nonneg _

theorem objcount_aggregate_invariant_witness :
    (ocClean "front_door" "person" ["person_orientation"]
        [OCMsg.attr (mkClassificationMsg "front_door" "obj1" "person_orientation"
          "standing"),
         OCMsg.event (.json (.obj [("after", JVal.obj
           [("camera", JVal.str "front_door"), ("label", JVal.str "person"),
            ("id", JVal.str "obj1"), ("end_time", JVal.num 1700000000)])]))] = true)
    ∧ (countVal (ocRun "front_door" "person" ["person_orientation"]
          [OCMsg.attr (mkClassificationMsg "front_door" "obj1" "person_orientation"
            "standing"),
           OCMsg.event (.json (.obj [("after", JVal.obj
             [("camera", JVal.str "front_door"), ("label", JVal.str "person"),
              ("id", JVal.str "obj1"),
              ("end_time", JVal.num 1700000000)])]))]).attribute_counts
          (JVal.str "standing")
        = (occCount (ocRun "front_door" "person" ["person_orientation"]
          [OCMsg.attr (mkClassificationMsg "front_door" "obj1" "person_orientation"
            "standing"),
           OCMsg.event (.json (.obj [("after", JVal.obj
             [("camera", JVal.str "front_door"), ("label", JVal.str "person"),
              ("id", JVal.str "obj1"),
              ("end_time", JVal.num 1700000000)])]))]).tracked_object_attributes
          (JVal.str "standing") : Int)) :=
  ⟨by decide,
   (objcount_aggregate_invariant "front_door" "person" ["person_orientation"]
      [OCMsg.attr (mkClassificationMsg "front_door" "obj1" "person_orientation"
        "standing"),
       OCMsg.event (.json (.obj [("after", JVal.obj
         [("camera", JVal.str "front_door"), ("label", JVal.str "person"),
          ("id", JVal.str "obj1"), ("end_time", JVal.num 1700000000)])]))]
      (JVal.str "standing") (by decide)).1⟩

end Frigate
